import Mathlib

/-!
Verification development for the imtk immediate-mode GUI layer.

The definitions below are a shallow embedding of the reconciliation engine in
`src/imtk/base.py`, `src/imtk/cursor.py` and `src/imtk/functional.py`:

* `RowFlag`, `ImCursor`, `ImCursor.addWidget` embed `cursor.py` (the
  `SameRowContext` object and the `ImCursor` layout engine).
* `ImCtx`, `refresh`, `set_active`, `enterCtx`, `getIdentifier` embed
  `ImContext` from `base.py`.  The class attribute `ImContext.__active__`
  is embedded as the boolean field `guardActive` (there is a single context).
  Native widget handles (`tk.Widget`) are embedded as natural numbers
  allocated from the counter `nextHandle`; `widget.destroy()` is recorded in
  the observation log `destroyed`.  The natural requested sizes
  `winfo_reqwidth` / `winfo_reqheight` are runtime toolkit data and are
  passed in as oracles `reqW reqH : Nat → Int` indexed by the native handle.
  Purely presentational operations (content-frame resize, scrollbar
  geometry, `after` timer scheduling in `loop` mode) have no observable
  effect on the reconciliation state and are not part of the state.
* `button`, `text`, `checkbox`, `input_text` embed the declarative widget
  functions of `functional.py` together with the `imtk_widget` wrapper.
  `custom_data` entries are embedded as dedicated record fields
  (`stateVar` for the checkbox `IntVar`, `valueVar` for `StringVar`s,
  `cbGuard` for `_Callback.active`).

The refresh recursion is made total with an explicit fuel argument; the
theorems show the fuel needed is small.
-/

namespace Imtk

/-- Embeds the value stored in `ImCursor.stay_in_row`: Python `False`,
Python `True` (set by `ImCursor.same_row`), or a `SameRowContext` object
whose internal `stay_in_row` boolean is `first` (it starts as the value
captured from the cursor at construction and becomes `True` after the
first `__bool__` query).  A `SameRowContext` whose stored `stay_in_row` is
itself a `SameRowContext` object is not representable here: the only
operation that creates one — `cursor.row()` while a `SameRowContext` is
already installed — is `ImCursor.rowEnter` below, which reports the
resulting `TypeError` instead of producing a state (see its docstring). -/
inductive RowFlag where
  | off : RowFlag
  | once : RowFlag
  | rowCtx (first : Bool) : RowFlag
deriving DecidableEq, Repr

/-- Truthiness test of `stay_in_row` (`if not self.stay_in_row`), including
the mutation performed by `SameRowContext.__bool__`: it returns the stored
boolean and then sets it to `True`. -/
def queryRow : RowFlag → Bool × RowFlag
  | .off => (false, .off)
  | .once => (true, .once)
  | .rowCtx b => (b, .rowCtx true)

/-- Embeds `ImCursor.__init__` (`cursor.py`): pen position starts at
`(padding, padding)`, row height and column width accumulators at `0`.
The `parent` link is represented by the position in the context's cursor
stack; the `frame` back-reference is not needed by the claims. -/
structure ImCursor where
  stayInRow : RowFlag := .off
  padding : Int := 5
  posX : Int := 5
  posY : Int := 5
  rowHeight : Int := 0
  colWidth : Int := 0
deriving DecidableEq, Repr

def initCursor : ImCursor := {}

/-- `ImCursor.same_row`: `self.stay_in_row = True`. -/
def ImCursor.sameRow (c : ImCursor) : ImCursor :=
  { c with stayInRow := .once }

/-- `cursor.row()` followed by `SameRowContext.__enter__`:
`SameRowContext.__init__` stores the cursor's current `stay_in_row` value
(`self.stay_in_row = cursor.stay_in_row`) and `__enter__` installs the new
object (`self.cursor.stay_in_row = self`).  When the current value is a
plain boolean the installed context stores that boolean.  When it is
already a `SameRowContext` object, the installed context stores an
*object*: the next truthiness test — `if not self.stay_in_row` at the top
of `add_widget`, which `_draw_widget_with_label` always reaches inside the
scope — raises `TypeError`, because `__bool__` returns the stored
non-boolean.  That raise precedes every identity-store registration and
every signal write and propagates out of `refresh` uncaught, so the
embedding reports the error here, at row entry; its error results carry no
state, which drops only the orphan native label widget Python may have
created just before the raise. -/
def ImCursor.rowEnter (c : ImCursor) : Option ImCursor :=
  match c.stayInRow with
  | .off => some { c with stayInRow := .rowCtx false }
  | .once => some { c with stayInRow := .rowCtx true }
  | .rowCtx _ => none

/-- `SameRowContext.__exit__`: `self.cursor.stay_in_row = False`. -/
def ImCursor.rowExit (c : ImCursor) : ImCursor :=
  { c with stayInRow := .off }

/-- Embeds `ImWidgetState` (`base.py`) plus the `custom_data` entries used
by the widget functions of `functional.py`.  `handle` is the native
`tk.Widget`; `activeFlag` is `_active`; `stateVar` is the checkbox's
`custom_data['state']` `IntVar` read as `get() == 1`; `valueVar` is the
`StringVar` in `custom_data['value']` (or `custom_data['text']` for
labels); `cbGuard` is `custom_data['callback'].active`. -/
structure ImWidgetState where
  handle : Nat
  identifier : String
  position : Option (Int × Int) := none
  new : Bool := true
  drawn : Bool := true
  activeFlag : Bool := false
  stateVar : Bool := false
  valueVar : String := ""
  cbGuard : Bool := true
deriving DecidableEq, Repr

/-- `ImCursor.add_widget` (`cursor.py` lines 74-105).  Returns the updated
cursor, the updated widget record, and whether the record was newly
registered in the identity store (the `info.new` branch); the store write
itself is performed by `ctxAddWidget`. -/
def ImCursor.addWidget (reqW reqH : Nat → Int) (c : ImCursor) (info : ImWidgetState) :
    ImCursor × ImWidgetState × Bool :=
  let q := queryRow c.stayInRow
  let c :=
    if q.1 = false then
      { c with stayInRow := q.2, posX := c.padding,
               posY := c.posY + c.rowHeight + c.padding, rowHeight := 0 }
    else
      { c with posX := c.posX + c.padding,
               stayInRow := match q.2 with
                 | .rowCtx b => .rowCtx b
                 | _ => .off }
  let inserted := info.new
  let info := { info with new := false }
  let info :=
    if info.position ≠ some (c.posX, c.posY) then
      { info with position := some (c.posX, c.posY) }
    else info
  let c := { c with rowHeight := max c.rowHeight (reqH info.handle) }
  let c := { c with posX := c.posX + reqW info.handle }
  let c := { c with colWidth := max c.colWidth c.posX }
  let info := { info with drawn := true }
  (c, info, inserted)

/-- `ImContext.refresh_mode` values. -/
inductive RefreshMode where
  | callback : RefreshMode
  | loop : RefreshMode
deriving DecidableEq, Repr

/-- Embeds the reconciliation state of `ImContext` (`base.py`):
`_widgets` as an insertion-ordered association list, `active_widget`,
`_cursor_stack` (head = top), `_namespaces` (Python appends at the end,
so the innermost namespace is the last list element), `_refresh_mode`,
the class attribute `__active__` as `guardActive`, the native-handle
allocator `nextHandle`, and the log `destroyed` of destroyed handles. -/
structure ImCtx where
  widgets : List (String × ImWidgetState) := []
  activeWidget : Option String := none
  cursorStack : List ImCursor := []
  namespaces : List String := []
  refreshMode : RefreshMode := .callback
  guardActive : Bool := false
  nextHandle : Nat := 0
  destroyed : List Nat := []
deriving DecidableEq, Repr

/-- Keys of the identity store. -/
def keys (l : List (String × ImWidgetState)) : List String :=
  l.map Prod.fst

/-- Key/native-handle view of the identity store (what "no creations, no
destructions, identities unchanged" talks about). -/
def keysHandles (l : List (String × ImWidgetState)) : List (String × Nat) :=
  l.map (fun kr => (kr.1, kr.2.handle))

/-- Dictionary lookup `self._widgets.get(idx, None)`. -/
def lookupW (k : String) : List (String × ImWidgetState) → Option ImWidgetState
  | [] => none
  | (k', r) :: rest => if k' = k then some r else lookupW k rest

/-- Dictionary assignment to an existing key (Python mutates the shared
`ImWidgetState` object referenced by the dict entry). -/
def updateEntry (k : String) (r : ImWidgetState) :
    List (String × ImWidgetState) → List (String × ImWidgetState)
  | [] => []
  | (k', r') :: rest =>
      if k' = k then (k', r) :: rest else (k', r') :: updateEntry k r rest

/-- `ImContext.current_namespace`: `self._namespaces[-1] if self._namespaces
else ""`. -/
def currentNamespace (namespaces : List String) : String :=
  namespaces.getLast?.getD ""

/-- `ImContext.get_identifier`: `f"{self.current_namespace}::{val}" if
self.current_namespace else val`. -/
def getIdentifier (namespaces : List String) (val : String) : String :=
  if currentNamespace namespaces ≠ "" then
    currentNamespace namespaces ++ "::" ++ val
  else val

/-- `_strip_label`: `label.split("#")[0]`. -/
def stripLabel (label : String) : String :=
  (label.splitOn "#").headD ""

/-- `ImContext.push_cursor` (parent link = rest of the stack). -/
def pushCursor (c : ImCursor) (s : ImCtx) : ImCtx :=
  { s with cursorStack := c :: s.cursorStack }

/-- `ImContext.__enter__`: raises if a context is already active, otherwise
marks this context active. -/
def enterCtx (s : ImCtx) : Except String ImCtx :=
  if s.guardActive then
    .error "Tried to active a frame but there is already an active one"
  else .ok { s with guardActive := true }

/-- `cursor.add_widget(info, context)` at context level: runs the cursor
bookkeeping on the top cursor (`ImContext.cursor` raises on an empty
stack) and performs the identity-store registration / shared-object
write-back. -/
def ctxAddWidget (reqW reqH : Nat → Int) (info : ImWidgetState) (s : ImCtx) :
    Except String ImCtx :=
  match s.cursorStack with
  | [] => .error "No active cursor found"
  | c :: rest =>
      let a := ImCursor.addWidget reqW reqH c info
      let widgets :=
        if a.2.2 then s.widgets ++ [(info.identifier, a.2.1)]
        else updateEntry info.identifier a.2.1 s.widgets
      .ok { s with cursorStack := a.1 :: rest, widgets := widgets }

/-- The `imtk_widget` wrapper (`functional.py` lines 41-62) around a widget
record produced by an `info_fn`: run the draw function, then set
`info._active = context.active_widget == info.identifier` on the (shared,
hence stored) record.  Returns the `_active` boolean. -/
def widgetWrap (draw : ImWidgetState → ImCtx → Except String ImCtx)
    (info : ImWidgetState) (s : ImCtx) : Except String (ImCtx × Bool) :=
  match draw info s with
  | .error e => .error e
  | .ok s' =>
      let act := decide (s'.activeWidget = some info.identifier)
      match lookupW info.identifier s'.widgets with
      | some r =>
          .ok ({ s' with widgets :=
                   updateEntry info.identifier { r with activeFlag := act } s'.widgets },
               act)
      | none => .error "widget record missing after draw"

/-- `button` (`functional.py` lines 109-147) under the `imtk_widget()`
wrapper with the default draw function.  Widget creation allocates a fresh
native handle; the `command=lambda: context.set_active(idx)` closure is
modelled by `set_active` below.  Returns the `_active` truth value the
application reads. -/
def button (reqW reqH : Nat → Int) (text : String) (s : ImCtx) :
    Except String (ImCtx × Bool) :=
  let idx := getIdentifier s.namespaces text
  match lookupW idx s.widgets with
  | some st => widgetWrap (ctxAddWidget reqW reqH) st s
  | none =>
      let st : ImWidgetState := { handle := s.nextHandle, identifier := idx }
      widgetWrap (ctxAddWidget reqW reqH) st { s with nextHandle := s.nextHandle + 1 }

/-- The value passed to `get_identifier` by `text`:
`identifier if identifier else text` — Python truthiness falls back to the
display text both when `identifier` is `None` and when it is the empty
string. -/
def textKey (identifier : Option String) (txt : String) : String :=
  match identifier with
  | some i => if i = "" then txt else i
  | none => txt

/-- `text` (`functional.py` lines 79-106): label widget with a `StringVar`
in `custom_data['text']` (embedded as `valueVar`), updated to the displayed
text on every call. -/
def text (reqW reqH : Nat → Int) (txt : String) (identifier : Option String)
    (s : ImCtx) : Except String (ImCtx × Bool) :=
  let idx := getIdentifier s.namespaces (textKey identifier txt)
  let p : ImWidgetState × ImCtx :=
    match lookupW idx s.widgets with
    | some info => (info, s)
    | none =>
        ({ handle := s.nextHandle, identifier := idx, valueVar := txt },
         { s with nextHandle := s.nextHandle + 1 })
  let info := { p.1 with valueVar := txt }
  widgetWrap (ctxAddWidget reqW reqH) info p.2

/-- `_draw_widget_with_label` (`functional.py` lines 65-76): a scoped row
containing the optional label text widget and the input widget.  Entering
the scoped row while the top cursor already holds a `SameRowContext` raises
`TypeError` at the first `add_widget` inside the scope (see
`ImCursor.rowEnter`). -/
def drawWithLabel (reqW reqH : Nat → Int) (labelText : String) (labelFirst : Bool)
    (info : ImWidgetState) (s : ImCtx) : Except String ImCtx :=
  match s.cursorStack with
  | [] => .error "No active cursor found"
  | c :: rest =>
    match c.rowEnter with
    | none => .error "TypeError: __bool__ should return bool, returned SameRowContext"
    | some ce =>
      let s := { s with cursorStack := ce :: rest }
      let step1 : Except String ImCtx :=
        if labelText ≠ "" ∧ labelFirst then
          match text reqW reqH labelText (some (info.identifier ++ "#label")) s with
          | .error e => .error e
          | .ok p => .ok p.1
        else .ok s
      match step1 with
      | .error e => .error e
      | .ok s =>
          match ctxAddWidget reqW reqH info s with
          | .error e => .error e
          | .ok s =>
              let step2 : Except String ImCtx :=
                if ¬ labelFirst ∧ labelText ≠ "" then
                  match text reqW reqH (stripLabel labelText)
                      (some (info.identifier ++ "#label")) s with
                  | .error e => .error e
                  | .ok p => .ok p.1
                else .ok s
              match step2 with
              | .error e => .error e
              | .ok s =>
                  match s.cursorStack with
                  | [] => .error "The cursor stack was corrupted. No active cursor"
                  | c :: rest => .ok { s with cursorStack := c.rowExit :: rest }

/-- The `StringVar.set` write path of a stateful input widget: the write
trace fires `_Callback`, which calls `context.set_active(info.identifier)`
only when the guard `active` flag is set.  During a refresh the nested
`set_active` → `refresh` call returns immediately because `__active__` is
set (see `refresh`), so its observable effect is recording the identifier
in the active-identifier signal. -/
def varSet (v : String) (info : ImWidgetState) (s : ImCtx) : ImWidgetState × ImCtx :=
  let info := { info with valueVar := v }
  if info.cbGuard then (info, { s with activeWidget := some info.identifier })
  else (info, s)

/-- The guarded programmatic write of input_text / _spinbox / _slider
(`functional.py` lines 267-271): toggle the change-callback guard off,
write the application-supplied value through the traced variable, toggle
the guard back on. -/
def syncWrite (text_ : String) (info : ImWidgetState) (s : ImCtx) : ImWidgetState × ImCtx :=
  let info1 := { info with cbGuard := false }
  let q := varSet text_ info1 s
  ({ q.1 with cbGuard := true }, q.2)

/-- The guard is off during the write, so the trace callback never fires:
the signal is untouched and the guard ends up restored. -/
theorem syncWrite_eq (text_ : String) (info : ImWidgetState) (s : ImCtx) :
    syncWrite text_ info s = ({ info with valueVar := text_, cbGuard := true }, s) := rfl

/-- `input_text` (`functional.py` lines 202-272) under `imtk_widget` with
`_draw_widget_with_label`.  `labelFirst` embeds
`label_position in ['left','west','l','w']`.  Returns `(ctx, interaction
flag, displayed value)`. -/
def input_text (reqW reqH : Nat → Int) (label text_ : String) (labelFirst : Bool)
    (s : ImCtx) : Except String (ImCtx × Bool × String) :=
  match (match lookupW (getIdentifier s.namespaces label) s.widgets with
         | some info => (info, s)
         | none =>
             ({ handle := s.nextHandle, identifier := getIdentifier s.namespaces label,
                valueVar := text_ },
              { s with nextHandle := s.nextHandle + 1 })) with
  | (info0, s1) =>
    match (if s1.activeWidget ≠ some info0.identifier then syncWrite text_ info0 s1
           else (info0, s1)) with
    | (info, s2) =>
      match drawWithLabel reqW reqH (stripLabel label) labelFirst info s2 with
      | .error e => .error e
      | .ok s3 =>
          let act := decide (s3.activeWidget = some info.identifier)
          match lookupW info.identifier s3.widgets with
          | some r =>
              .ok ({ s3 with widgets :=
                       updateEntry info.identifier { r with activeFlag := act } s3.widgets },
                   act, info.valueVar)
          | none => .error "widget record missing after draw"

/-- `checkbox` (`functional.py` lines 150-198) under `imtk_widget()` with
the default draw function.  Creation registers
`command=lambda: context.set_active(label)` with the RAW label (see
`checkboxCommand`); the `IntVar` starts at 0 (`stateVar = false`).
Returns `(ctx, interaction flag, displayed checked state)`. -/
def checkbox (reqW reqH : Nat → Int) (label : String) (value : Bool) (s : ImCtx) :
    Except String (ImCtx × Bool × Bool) :=
  match (match lookupW (getIdentifier s.namespaces label) s.widgets with
         | some info => (info, s)
         | none =>
             ({ handle := s.nextHandle, identifier := getIdentifier s.namespaces label },
              { s with nextHandle := s.nextHandle + 1 })) with
  | (info0, s1) =>
    match (if s1.activeWidget ≠ some info0.identifier then
             ({ info0 with stateVar := value } : ImWidgetState)
           else info0) with
    | info =>
      match widgetWrap (ctxAddWidget reqW reqH) info s1 with
      | .error e => .error e
      | .ok q => .ok (q.1, q.2, info.stateVar)

/-- The native callback installed by `checkbox` at widget creation:
`command=lambda: context.set_active(label)` — it records the raw,
un-namespaced label into the active-identifier signal (the triggered
refresh in callback mode is `refresh` below). -/
def checkboxCommand (label : String) (s : ImCtx) : ImCtx :=
  { s with activeWidget := some label }

/-- End-of-refresh sweep (`base.py` lines 319-325): evict every record
whose `drawn` flag is false and destroy its native handle. -/
def removeUndrawn (s : ImCtx) : ImCtx :=
  { s with
    widgets := s.widgets.filter (fun kr => kr.2.drawn),
    destroyed := s.destroyed ++
      (s.widgets.filter (fun kr => !kr.2.drawn)).map (fun kr => kr.2.handle) }

/-- `base.py` lines 336-337: reset every surviving record's `drawn` flag. -/
def resetDrawnFlags (s : ImCtx) : ImCtx :=
  { s with widgets := s.widgets.map (fun kr => (kr.1, { kr.2 with drawn := false })) }

/-- `ImContext.refresh` (`base.py` lines 285-348), parameterized by the
application draw callback and made total by a fuel argument (returns the
final state and the number of full passes performed).  The silent return
when `ImContext.__active__` is set reports 0 passes.  The content-frame
resize, scrollbar update and `loop`-mode `after` scheduling have no effect
on this state.  The `with self:` block sets `guardActive` for the duration
of the draw callback (`__enter__` cannot fail there since the guard was
just observed false); `__exit__` raises if the guard was clobbered. -/
def refresh (draw : ImCtx → Except String ImCtx) : Nat → ImCtx → Except String (ImCtx × Nat)
  | 0, _ => .error "refresh: out of fuel"
  | fuel + 1, s =>
    if s.guardActive then .ok (s, 0)
    else if s.cursorStack = [] then
      match draw (pushCursor initCursor { s with guardActive := true }) with
      | .error e => .error e
      | .ok u =>
          if u.guardActive then
            match u.cursorStack with
            | [] => .error "The cursor stack was corrupted. No active cursor"
            | _ :: rest =>
                if rest = [] then
                  let u1 := resetDrawnFlags (removeUndrawn
                    { u with guardActive := false, cursorStack := rest })
                  let recurse := u1.activeWidget.isSome &&
                    decide (u1.refreshMode = RefreshMode.callback)
                  let u2 := { u1 with activeWidget := none }
                  if recurse then
                    match refresh draw fuel u2 with
                    | .error e => .error e
                    | .ok (t, n) => .ok (t, n + 1)
                  else .ok (u2, 1)
                else .error "The cursor stack is corrupted, it should be empty"
          else .error "ImFrame __active__ corrupted"
    else .error "The cursor stack is corrupted, it should be empty"

/-- `ImContext.set_active` (`base.py` lines 351-354): record the identifier
and, in callback mode, immediately refresh. -/
def set_active (draw : ImCtx → Except String ImCtx) (fuel : Nat) (identifier : String)
    (s : ImCtx) : Except String (ImCtx × Nat) :=
  if ({ s with activeWidget := some identifier } : ImCtx).refreshMode = RefreshMode.callback then
    refresh draw fuel { s with activeWidget := some identifier }
  else .ok ({ s with activeWidget := some identifier }, 0)

/-- A draw callback that declares a fixed sequence of buttons (the shape of
an application draw callback whose widget set does not change between
passes). -/
def drawList (reqW reqH : Nat → Int) : List String → ImCtx → Except String ImCtx
  | [], s => .ok s
  | d :: ds, s =>
      match button reqW reqH d s with
      | .error e => .error e
      | .ok p => drawList reqW reqH ds p.1

/-- Well-formedness of the identity store maintained by the engine at every
refresh boundary: keys are unique, every record's `new` flag was cleared by
its first placement, and each record's stored identifier is its key. -/
def StoreWF (l : List (String × ImWidgetState)) : Prop :=
  (keys l).Nodup ∧ ∀ kr ∈ l, kr.2.new = false ∧ kr.2.identifier = kr.1

/-! ### Association-list lemmas for the identity store -/

theorem keys_append (l l' : List (String × ImWidgetState)) :
    keys (l ++ l') = keys l ++ keys l' :=
  List.map_append _ _ _

theorem mem_keys_of_lookupW {k : String} {l : List (String × ImWidgetState)}
    {r : ImWidgetState} (h : lookupW k l = some r) : k ∈ keys l := by
  induction l with
  | nil => simp [lookupW] at h
  | cons kr rest ih =>
      obtain ⟨k', r'⟩ := kr
      by_cases hk : k' = k
      · subst hk; simp [keys]
      · simp only [lookupW, if_neg hk] at h
        simp [keys] at ih ⊢
        exact Or.inr (ih h)

theorem lookupW_eq_none {k : String} {l : List (String × ImWidgetState)}
    (h : k ∉ keys l) : lookupW k l = none := by
  induction l with
  | nil => rfl
  | cons kr rest ih =>
      obtain ⟨k', r'⟩ := kr
      simp only [keys, List.map_cons, List.mem_cons, not_or] at h
      simp [lookupW, Ne.symm h.1, ih h.2]

theorem lookupW_mem {k : String} {l : List (String × ImWidgetState)}
    {r : ImWidgetState} (h : lookupW k l = some r) : (k, r) ∈ l := by
  induction l with
  | nil => simp [lookupW] at h
  | cons kr rest ih =>
      obtain ⟨k', r'⟩ := kr
      by_cases hk : k' = k
      · subst hk
        simp [lookupW] at h
        simp [h]
      · simp only [lookupW, if_neg hk] at h
        exact List.mem_cons_of_mem _ (ih h)

theorem mem_lookupW {k : String} {l : List (String × ImWidgetState)}
    {r : ImWidgetState} (hnd : (keys l).Nodup) (h : (k, r) ∈ l) :
    lookupW k l = some r := by
  induction l with
  | nil => simp at h
  | cons kr rest ih =>
      obtain ⟨k', r'⟩ := kr
      simp only [keys, List.map_cons, List.nodup_cons] at hnd
      rcases List.mem_cons.mp h with h1 | h1
      · obtain ⟨hk, hr⟩ := Prod.ext_iff.mp h1
        simp only at hk hr
        simp [lookupW, hk.symm, hr]
      · have hk : k' ≠ k := by
          intro he; subst he
          exact hnd.1 (List.mem_map_of_mem Prod.fst h1)
        simp [lookupW, hk, ih hnd.2 h1]

theorem lookupW_append_of_none {k : String} {l l' : List (String × ImWidgetState)}
    (h : lookupW k l = none) : lookupW k (l ++ l') = lookupW k l' := by
  induction l with
  | nil => rfl
  | cons kr rest ih =>
      obtain ⟨k', r'⟩ := kr
      by_cases hk : k' = k
      · simp [lookupW, hk] at h
      · simp only [lookupW, if_neg hk] at h
        simp [lookupW, if_neg hk, ih h]

theorem lookupW_append_left {k : String} {l l' : List (String × ImWidgetState)}
    {r : ImWidgetState} (h : lookupW k l = some r) :
    lookupW k (l ++ l') = some r := by
  induction l with
  | nil => simp [lookupW] at h
  | cons kr rest ih =>
      obtain ⟨k', r'⟩ := kr
      by_cases hk : k' = k
      · simp only [lookupW, if_pos hk] at h ⊢
        exact h
      · simp only [lookupW, if_neg hk] at h ⊢
        exact ih h

theorem lookupW_updateEntry_self {k : String} {l : List (String × ImWidgetState)}
    {r0 : ImWidgetState} (r : ImWidgetState) (h : lookupW k l = some r0) :
    lookupW k (updateEntry k r l) = some r := by
  induction l with
  | nil => simp [lookupW] at h
  | cons kr rest ih =>
      obtain ⟨k', r'⟩ := kr
      by_cases hk : k' = k
      · simp [updateEntry, hk, lookupW]
      · simp only [lookupW, if_neg hk] at h
        simp [updateEntry, hk, lookupW, ih h]

theorem lookupW_updateEntry_ne {k k' : String} {l : List (String × ImWidgetState)}
    (r : ImWidgetState) (h : k ≠ k') :
    lookupW k (updateEntry k' r l) = lookupW k l := by
  induction l with
  | nil => rfl
  | cons kr rest ih =>
      obtain ⟨k'', r''⟩ := kr
      by_cases hk : k'' = k'
      · subst hk
        have hkk : k'' ≠ k := fun he => h he.symm
        simp [updateEntry, lookupW, hkk]
      · simp only [updateEntry, if_neg hk, lookupW]
        by_cases hkk : k'' = k
        · simp [hkk]
        · simp [hkk, ih]

theorem keys_updateEntry (k : String) (r : ImWidgetState)
    (l : List (String × ImWidgetState)) : keys (updateEntry k r l) = keys l := by
  induction l with
  | nil => rfl
  | cons kr rest ih =>
      obtain ⟨k', r'⟩ := kr
      by_cases hk : k' = k
      · simp [updateEntry, hk, keys]
      · simp [updateEntry, hk, keys] at ih ⊢
        exact ih

theorem keysHandles_updateEntry {k : String} {l : List (String × ImWidgetState)}
    {r0 : ImWidgetState} (r : ImWidgetState) (h : lookupW k l = some r0)
    (hh : r.handle = r0.handle) :
    keysHandles (updateEntry k r l) = keysHandles l := by
  induction l with
  | nil => rfl
  | cons kr rest ih =>
      obtain ⟨k', r'⟩ := kr
      by_cases hk : k' = k
      · simp only [lookupW, if_pos hk] at h
        obtain rfl : r' = r0 := by injection h
        simp [updateEntry, hk, keysHandles, hh]
      · simp only [lookupW, if_neg hk] at h
        simp [updateEntry, hk, keysHandles] at ih ⊢
        exact ih h

theorem updateEntry_updateEntry (k : String) (r r' : ImWidgetState)
    (l : List (String × ImWidgetState)) :
    updateEntry k r (updateEntry k r' l) = updateEntry k r l := by
  induction l with
  | nil => rfl
  | cons kr rest ih =>
      obtain ⟨k'', r''⟩ := kr
      by_cases hk : k'' = k
      · simp [updateEntry, hk]
      · simp [updateEntry, hk, ih]

theorem updateEntry_append_self {k : String} {l : List (String × ImWidgetState)}
    (r r0 : ImWidgetState) (h : k ∉ keys l) :
    updateEntry k r (l ++ [(k, r0)]) = l ++ [(k, r)] := by
  induction l with
  | nil => simp [updateEntry]
  | cons kr rest ih =>
      obtain ⟨k', r'⟩ := kr
      simp only [keys, List.map_cons, List.mem_cons, not_or] at h
      simp [updateEntry, Ne.symm h.1, ih h.2]

theorem lookupW_filter {k : String} {l : List (String × ImWidgetState)}
    {r : ImWidgetState} (p : String × ImWidgetState → Bool)
    (hnd : (keys l).Nodup) (h : lookupW k l = some r) :
    lookupW k (l.filter p) = if p (k, r) then some r else none := by
  induction l with
  | nil => simp [lookupW] at h
  | cons kr rest ih =>
      obtain ⟨k', r'⟩ := kr
      simp only [keys, List.map_cons, List.nodup_cons] at hnd
      by_cases hk : k' = k
      · subst hk
        simp only [lookupW, if_pos rfl] at h
        obtain rfl : r' = r := by injection h
        by_cases hp : p (k', r')
        · rw [List.filter_cons_of_pos hp, if_pos hp]
          simp [lookupW]
        · rw [List.filter_cons_of_neg hp, if_neg hp]
          apply lookupW_eq_none
          intro hm
          apply hnd.1
          obtain ⟨b, hb, hbk⟩ := List.mem_map.mp hm
          exact hbk ▸ List.mem_map_of_mem Prod.fst (List.mem_of_mem_filter hb)
      · simp only [lookupW, if_neg hk] at h
        by_cases hp : p (k', r')
        · rw [List.filter_cons_of_pos hp]
          simp only [lookupW, if_neg hk]
          exact ih hnd.2 h
        · rw [List.filter_cons_of_neg hp]
          exact ih hnd.2 h

theorem lookupW_map_snd {k : String} (f : ImWidgetState → ImWidgetState)
    (l : List (String × ImWidgetState)) :
    lookupW k (l.map (fun kr => (kr.1, f kr.2))) = (lookupW k l).map f := by
  induction l with
  | nil => rfl
  | cons kr rest ih =>
      obtain ⟨k', r'⟩ := kr
      by_cases hk : k' = k
      · simp [lookupW, hk]
      · simp [lookupW, hk, ih]

theorem keys_map_snd (f : ImWidgetState → ImWidgetState)
    (l : List (String × ImWidgetState)) :
    keys (l.map (fun kr => (kr.1, f kr.2))) = keys l := by
  induction l with
  | nil => rfl
  | cons kr rest ih => simp [keys]

theorem keys_eq_of_keysHandles {l l' : List (String × ImWidgetState)}
    (h : keysHandles l = keysHandles l') : keys l = keys l' := by
  have h1 : ∀ m : List (String × ImWidgetState), keys m = (keysHandles m).map Prod.fst := by
    intro m
    induction m with
    | nil => rfl
    | cons kr rest ih => simp [keys, keysHandles]
  rw [h1, h1, h]

/-! ### String lemmas for namespaced identifiers -/

theorem string_length_pos_of_ne_empty {s : String} (h : s ≠ "") : 0 < s.length := by
  cases s with
  | mk data =>
      cases data with
      | nil => simp at h
      | cons a l => simp [String.length]

theorem string_append_right_cancel {a b c : String} (h : a ++ c = b ++ c) : a = b := by
  have hd := String.ext_iff.mp h
  rw [String.data_append, String.data_append] at hd
  exact String.ext (List.append_cancel_right hd)

theorem length_ns_append (a L : String) :
    (a ++ "::" ++ L).length = a.length + 2 + L.length := by
  rw [String.length_append, String.length_append]
  rfl

theorem length_getIdentifier (namespaces : List String) (v : String) :
    v.length ≤ (getIdentifier namespaces v).length := by
  unfold getIdentifier
  split
  · rw [length_ns_append]
    omega
  · exact le_refl _

theorem getIdentifier_ne_self {namespaces : List String} (v : String)
    (h : currentNamespace namespaces ≠ "") : getIdentifier namespaces v ≠ v := by
  unfold getIdentifier
  rw [if_pos h]
  intro he
  have hl := congrArg String.length he
  have hp := string_length_pos_of_ne_empty h
  rw [length_ns_append] at hl
  omega

/-- Claim C4 (amended form): the identifier is qualified only by the
innermost namespace, and two namespace states with distinct innermost
namespaces always produce distinct identifiers for the same label. -/
theorem c4_identifier_distinct_innermost (L : String) (A B : List String)
    (h : currentNamespace A ≠ currentNamespace B) :
    getIdentifier A L ≠ getIdentifier B L := by
  unfold getIdentifier
  by_cases ha : currentNamespace A = ""
  · by_cases hb : currentNamespace B = ""
    · exact absurd (ha.trans hb.symm) h
    · rw [if_neg (by simp [ha]), if_pos hb]
      intro he
      have hl := congrArg String.length he
      have hp := string_length_pos_of_ne_empty hb
      rw [length_ns_append] at hl
      omega
  · by_cases hb : currentNamespace B = ""
    · rw [if_pos ha, if_neg (by simp [hb])]
      intro he
      have hl := congrArg String.length he
      have hp := string_length_pos_of_ne_empty ha
      rw [length_ns_append] at hl
      omega
    · rw [if_pos ha, if_pos hb]
      intro he
      have h1 : currentNamespace A ++ "::" = currentNamespace B ++ "::" := by
        rw [String.append_assoc, String.append_assoc] at he
        have h2 := string_append_right_cancel
          (a := currentNamespace A) (b := currentNamespace B) (c := "::" ++ L) he
        rw [h2]
      exact h (string_append_right_cancel h1)

/-- Claim C4 (counterexample): the same label under the distinct namespace
stacks ["n"] and ["m", "n"] yields the same identifier "n::x", because
only the innermost namespace qualifies the label (there is no
concatenation of the whole stack). -/
theorem c4_counterexample :
    getIdentifier ["n"] "x" = getIdentifier ["m", "n"] "x" ∧
    (["n"] : List String) ≠ ["m", "n"] := by
  constructor
  · rfl
  · decide

/-- Claim C4 (witness): distinct innermost namespaces give distinct
identifiers. -/
theorem c4_witness :
    currentNamespace [] ≠ currentNamespace ["n"] ∧
    getIdentifier [] "x" ≠ getIdentifier ["n"] "x" :=
  ⟨by decide, c4_identifier_distinct_innermost "x" [] ["n"] (by decide)⟩

/-! ### Claim C6: re-entrant refresh -/

/-- Claim C6 (counterexample): a refresh call made while the active-context
guard is set raises no exception — it returns successfully, leaving the
state unchanged and performing 0 passes. -/
theorem c6_counterexample :
    refresh (fun s => .ok s) 1 { guardActive := true } =
      .ok (({ guardActive := true } : ImCtx), 0) := rfl

/-- Claim C6 (amended form): a refresh entered while a refresh is already
in progress returns immediately without drawing or modifying any state (no
interleaving and no exception), while directly re-activating an
already-active context through the context-manager enter raises. -/
theorem c6_reentrant_refresh_silent (draw : ImCtx → Except String ImCtx)
    (fuel : Nat) (s : ImCtx) (h : s.guardActive = true) :
    refresh draw (fuel + 1) s = .ok (s, 0) ∧
    enterCtx s = .error "Tried to active a frame but there is already an active one" := by
  constructor
  · simp [refresh, h]
  · simp [enterCtx, h]

/-! ### Cursor layout lemmas -/

theorem addWidget_sticky (reqW reqH : Nat → Int) (c : ImCursor) (info : ImWidgetState)
    (h : (queryRow c.stayInRow).1 = true) :
    ImCursor.addWidget reqW reqH c info =
      ({ c with posX := c.posX + c.padding + reqW info.handle,
                rowHeight := max c.rowHeight (reqH info.handle),
                colWidth := max c.colWidth (c.posX + c.padding + reqW info.handle),
                stayInRow := match (queryRow c.stayInRow).2 with
                  | .rowCtx b => .rowCtx b
                  | _ => .off },
       { info with new := false, drawn := true,
                   position := some (c.posX + c.padding, c.posY) },
       info.new) := by
  unfold ImCursor.addWidget
  simp only [h]
  by_cases hp : info.position = some (c.posX + c.padding, c.posY)
  · simp [hp]
  · simp [hp]

theorem addWidget_newRow (reqW reqH : Nat → Int) (c : ImCursor) (info : ImWidgetState)
    (h : (queryRow c.stayInRow).1 = false) :
    ImCursor.addWidget reqW reqH c info =
      ({ c with stayInRow := (queryRow c.stayInRow).2,
                posX := c.padding + reqW info.handle,
                posY := c.posY + c.rowHeight + c.padding,
                rowHeight := max 0 (reqH info.handle),
                colWidth := max c.colWidth (c.padding + reqW info.handle) },
       { info with new := false, drawn := true,
                   position := some (c.padding, c.posY + c.rowHeight + c.padding) },
       info.new) := by
  unfold ImCursor.addWidget
  simp only [h]
  by_cases hp : info.position = some (c.padding, c.posY + c.rowHeight + c.padding)
  · simp [hp]
  · simp [hp]

/-- A cursor mid-way through a scoped row block (the SameRowContext has
already been queried once, so its internal flag is true), used to refute
the no-op composition claim on concrete data. -/
def rowScopeCursor : ImCursor :=
  { stayInRow := RowFlag.rowCtx true, posX := 20, posY := 10, rowHeight := 10 }

/-- Claim C5 (counterexample): inside a scoped row (flag is an active
SameRowContext), calling the single-shot same-row replaces the scope's
flag; the next widget still joins the row at y = 10, but the flag has been
consumed and the widget after it starts a new row at y = 25 — the scope's
row-stickiness is lost for all subsequent widgets, so the call is not a
no-op. -/
theorem c5_counterexample :
    rowScopeCursor.sameRow.stayInRow ≠ rowScopeCursor.stayInRow ∧
    (let f : Nat → Int := fun _ => 10
     let a1 := ImCursor.addWidget f f rowScopeCursor.sameRow { handle := 0, identifier := "w1" }
     let a2 := ImCursor.addWidget f f a1.1 { handle := 1, identifier := "w2" }
     a1.2.1.position = some (25, 10) ∧ a2.2.1.position = some (5, 25)) := by
  refine ⟨by decide, by decide, by decide⟩

/-- Claim C5 (amended form): the single-shot same-row call makes only the
immediately next widget join the current row (the flag is consumed by one
placement); a scoped row block keeps every widget placed inside it in one
row (the first placement opens the row, all later ones join it and the
scope flag is retained); but invoking the single-shot call while inside a
scoped row block is not a no-op: it overwrites the scope's flag with the
single-shot flag, which the next placement consumes, so later widgets in
the block start new rows. -/
theorem c5_row_grouping_amended (reqW reqH : Nat → Int) :
    (∀ (c : ImCursor) (w : ImWidgetState), c.stayInRow = RowFlag.once →
       (ImCursor.addWidget reqW reqH c w).2.1.position =
         some (c.posX + c.padding, c.posY) ∧
       (ImCursor.addWidget reqW reqH c w).1.stayInRow = RowFlag.off) ∧
    (∀ (c : ImCursor) (w : ImWidgetState), c.stayInRow = RowFlag.off →
       (ImCursor.addWidget reqW reqH c w).2.1.position =
         some (c.padding, c.posY + c.rowHeight + c.padding) ∧
       (ImCursor.addWidget reqW reqH c w).1.stayInRow = RowFlag.off) ∧
    (∀ (c : ImCursor) (w : ImWidgetState), c.stayInRow = RowFlag.rowCtx true →
       (ImCursor.addWidget reqW reqH c w).2.1.position =
         some (c.posX + c.padding, c.posY) ∧
       (ImCursor.addWidget reqW reqH c w).1.stayInRow = RowFlag.rowCtx true) ∧
    (∀ (c : ImCursor) (w : ImWidgetState), c.stayInRow = RowFlag.rowCtx false →
       (ImCursor.addWidget reqW reqH c w).2.1.position =
         some (c.padding, c.posY + c.rowHeight + c.padding) ∧
       (ImCursor.addWidget reqW reqH c w).1.stayInRow = RowFlag.rowCtx true) ∧
    (∀ c : ImCursor, c.stayInRow = RowFlag.rowCtx true →
       c.sameRow.stayInRow = RowFlag.once ∧
       ∀ w : ImWidgetState,
         (ImCursor.addWidget reqW reqH c.sameRow w).1.stayInRow = RowFlag.off) := by
  refine ⟨?_, ?_, ?_, ?_, ?_⟩
  · intro c w h
    rw [addWidget_sticky reqW reqH c w (by rw [h]; rfl)]
    rw [h]
    exact ⟨rfl, rfl⟩
  · intro c w h
    rw [addWidget_newRow reqW reqH c w (by rw [h]; rfl)]
    rw [h]
    exact ⟨rfl, rfl⟩
  · intro c w h
    rw [addWidget_sticky reqW reqH c w (by rw [h]; rfl)]
    rw [h]
    exact ⟨rfl, rfl⟩
  · intro c w h
    rw [addWidget_newRow reqW reqH c w (by rw [h]; rfl)]
    rw [h]
    exact ⟨rfl, rfl⟩
  · intro c _h
    refine ⟨rfl, fun w => ?_⟩
    rw [addWidget_sticky reqW reqH c.sameRow w rfl]
    rfl

/-- Claim C5 (witness). -/
theorem c5_witness :
    ({ stayInRow := RowFlag.once } : ImCursor).stayInRow = RowFlag.once ∧
    (ImCursor.addWidget (fun _ => 10) (fun _ => 10)
        { stayInRow := RowFlag.once } { handle := 0, identifier := "w" }).2.1.position =
      some (5 + 5, 5) ∧
    (ImCursor.addWidget (fun _ => 10) (fun _ => 10)
        { stayInRow := RowFlag.once } { handle := 0, identifier := "w" }).1.stayInRow =
      RowFlag.off := by
  have h := (c5_row_grouping_amended (fun _ => 10) (fun _ => 10)).1
    { stayInRow := RowFlag.once } { handle := 0, identifier := "w" } rfl
  exact ⟨rfl, h.1, h.2⟩

/-- Claim C7: sequential placement arithmetic.  A widget placed without
row-stickiness is placed at the left padding with the vertical pen advanced
by the previous row's height plus padding; a widget B placed with
row-stickiness immediately after widget A satisfies
x(B) = x(A) + width(A) + padding and y(B) = y(A).  (Placement is a pure
function of the cursor state and the widget sizes, so the whole placement
sequence of a fixed widget sequence is deterministic.) -/
theorem c7_sequential_placement (reqW reqH : Nat → Int) :
    (∀ (c : ImCursor) (info : ImWidgetState),
       (queryRow c.stayInRow).1 = false →
       (ImCursor.addWidget reqW reqH c info).2.1.position =
         some (c.padding, c.posY + c.rowHeight + c.padding)) ∧
    (∀ (c : ImCursor) (info : ImWidgetState),
       (queryRow c.stayInRow).1 = true →
       (ImCursor.addWidget reqW reqH c info).2.1.position =
         some (c.posX + c.padding, c.posY)) ∧
    (∀ (c : ImCursor) (A B : ImWidgetState) (xA yA : Int),
       (ImCursor.addWidget reqW reqH c A).2.1.position = some (xA, yA) →
       (queryRow (ImCursor.addWidget reqW reqH c A).1.stayInRow).1 = true →
       (ImCursor.addWidget reqW reqH (ImCursor.addWidget reqW reqH c A).1 B).2.1.position =
         some (xA + reqW A.handle + c.padding, yA)) := by
  refine ⟨?_, ?_, ?_⟩
  · intro c info h
    rw [addWidget_newRow reqW reqH c info h]
  · intro c info h
    rw [addWidget_sticky reqW reqH c info h]
  · intro c A B xA yA hpos hq
    by_cases h : (queryRow c.stayInRow).1 = true
    · rw [addWidget_sticky reqW reqH c A h] at hpos hq ⊢
      rw [addWidget_sticky reqW reqH _ B hq]
      simp only [Option.some.injEq, Prod.mk.injEq] at hpos
      obtain ⟨hx, hy⟩ := hpos
      subst hx
      subst hy
      rfl
    · rw [addWidget_newRow reqW reqH c A (by simpa using h)] at hpos hq ⊢
      rw [addWidget_sticky reqW reqH _ B hq]
      simp only [Option.some.injEq, Prod.mk.injEq] at hpos
      obtain ⟨hx, hy⟩ := hpos
      subst hx
      subst hy
      rfl

/-- Claim C7 (witness). -/
theorem c7_witness :
    (queryRow ({} : ImCursor).stayInRow).1 = false ∧
    (ImCursor.addWidget (fun _ => 10) (fun _ => 10) {} { handle := 0, identifier := "w" }).2.1.position =
      some (5, 5 + 0 + 5) :=
  ⟨rfl, (c7_sequential_placement (fun _ => 10) (fun _ => 10)).1 {}
    { handle := 0, identifier := "w" } rfl⟩

/-- Claim C6 (witness). -/
theorem c6_witness :
    ({ guardActive := true } : ImCtx).guardActive = true ∧
    (refresh (fun s => .ok s) 2 { guardActive := true } =
       .ok (({ guardActive := true } : ImCtx), 0) ∧
     enterCtx { guardActive := true } =
       .error "Tried to active a frame but there is already an active one") :=
  ⟨rfl, c6_reentrant_refresh_silent (fun s => .ok s) 1 { guardActive := true } rfl⟩

/-! ### Refresh pass machinery (claims C1, C2, C3, C9) -/

/-- State transformation performed by the tail of a successful refresh
pass, starting from the post-draw state: clear the guard, pop the root
cursor, sweep undrawn records, reset the drawn flags, clear the
active-identifier signal. -/
def finishPass (u : ImCtx) : ImCtx :=
  { resetDrawnFlags (removeUndrawn { u with guardActive := false, cursorStack := [] }) with
    activeWidget := none }

theorem finishPass_guardActive (u : ImCtx) : (finishPass u).guardActive = false := rfl

theorem finishPass_cursorStack (u : ImCtx) : (finishPass u).cursorStack = [] := rfl

theorem finishPass_activeWidget (u : ImCtx) : (finishPass u).activeWidget = none := rfl

theorem finishPass_refreshMode (u : ImCtx) : (finishPass u).refreshMode = u.refreshMode := rfl

theorem finishPass_namespaces (u : ImCtx) : (finishPass u).namespaces = u.namespaces := rfl

theorem finishPass_nextHandle (u : ImCtx) : (finishPass u).nextHandle = u.nextHandle := rfl

/-- One successful refresh pass, written as an equation: under the entry
conditions (guard clear, empty cursor stack, draw succeeds, guard intact
after draw, exactly the root cursor left), a refresh either finishes after
this pass or recurses once more according to the active-identifier signal
and the refresh mode. -/
theorem refresh_succ_eq (draw : ImCtx → Except String ImCtx) (fuel : Nat) (s u : ImCtx)
    (c : ImCursor) (hg : s.guardActive = false) (hcs : s.cursorStack = [])
    (hd : draw (pushCursor initCursor { s with guardActive := true }) = .ok u)
    (hug : u.guardActive = true) (hust : u.cursorStack = [c]) :
    refresh draw (fuel + 1) s =
      (if u.activeWidget.isSome && decide (u.refreshMode = RefreshMode.callback) then
        match refresh draw fuel (finishPass u) with
        | .error e => .error e
        | .ok (t, n) => .ok (t, n + 1)
      else .ok (finishPass u, 1)) := by
  conv_lhs => rw [refresh]
  rw [hg, hd, hcs]
  simp only [Bool.false_eq_true, reduceIte, if_true, if_false]
  rw [hug, hust]
  simp only [reduceIte]
  rfl

/-- Auxiliary for claim C1: a refresh entered with a pending activation, in
callback mode, with a draw callback that preserves the activation signal
and the nesting contract, completes within fuel 2 in exactly 2 passes. -/
theorem refresh_two_passes_aux (draw : ImCtx → Except String ImCtx)
    (hdraw : ∀ t, ∃ u, draw t = .ok u ∧ u.activeWidget = t.activeWidget ∧
       u.guardActive = t.guardActive ∧ u.cursorStack = t.cursorStack ∧
       u.refreshMode = t.refreshMode)
    (s : ImCtx) (identifier : String)
    (hmode : s.refreshMode = RefreshMode.callback)
    (hg : s.guardActive = false) (hcs : s.cursorStack = [])
    (hact : s.activeWidget = some identifier) :
    ∃ t, refresh draw 2 s = .ok (t, 2) ∧ t.activeWidget = none := by
  obtain ⟨u, hd, hua, hug, hus, hum⟩ := hdraw (pushCursor initCursor { s with guardActive := true })
  have hug' : u.guardActive = true := by rw [hug]; rfl
  have hus' : u.cursorStack = [initCursor] := by
    rw [hus]
    show initCursor :: s.cursorStack = [initCursor]
    rw [hcs]
  have hua' : u.activeWidget = some identifier := by rw [hua]; exact hact
  have hum' : u.refreshMode = RefreshMode.callback := by rw [hum]; exact hmode
  rw [refresh_succ_eq draw 1 s u initCursor hg hcs hd hug' hus']
  rw [hua', hum']
  rw [if_pos (show ((some identifier).isSome &&
    decide (RefreshMode.callback = RefreshMode.callback)) = true from rfl)]
  -- second pass: the signal is cleared in finishPass u
  obtain ⟨u2, hd2, hua2, hug2, hus2, hum2⟩ :=
    hdraw (pushCursor initCursor { finishPass u with guardActive := true })
  have hug2' : u2.guardActive = true := by rw [hug2]; rfl
  have hus2' : u2.cursorStack = [initCursor] := by
    rw [hus2]
    show initCursor :: (finishPass u).cursorStack = [initCursor]
    rw [finishPass_cursorStack]
  have hua2' : u2.activeWidget = none := by rw [hua2]; rfl
  rw [refresh_succ_eq draw 0 (finishPass u) u2 initCursor (finishPass_guardActive u)
    (finishPass_cursorStack u) hd2 hug2' hus2']
  rw [hua2']
  rw [if_neg (show ¬(((none : Option String)).isSome &&
    decide (u2.refreshMode = RefreshMode.callback)) = true by simp)]
  exact ⟨finishPass u2, rfl, finishPass_activeWidget u2⟩

/-- Claim C1: a refresh triggered by a native activation through
set_active in callback mode — with a draw callback that does not itself
invoke set_active (it preserves the active-identifier signal) and respects
the nesting contract — settles after exactly 2 passes: the initial pass
recurses exactly once because the signal is set, and the corrective pass
runs with the signal cleared, so it cannot recurse further.  Fuel 2
suffices and the final state has no pending activation. -/
theorem c1_activation_settles_in_two_passes (draw : ImCtx → Except String ImCtx)
    (hdraw : ∀ t, ∃ u, draw t = .ok u ∧ u.activeWidget = t.activeWidget ∧
       u.guardActive = t.guardActive ∧ u.cursorStack = t.cursorStack ∧
       u.refreshMode = t.refreshMode)
    (s : ImCtx) (identifier : String)
    (hmode : s.refreshMode = RefreshMode.callback)
    (hg : s.guardActive = false) (hcs : s.cursorStack = []) :
    ∃ t, set_active draw 2 identifier s = .ok (t, 2) ∧ t.activeWidget = none := by
  have heq : set_active draw 2 identifier s =
      refresh draw 2 { s with activeWidget := some identifier } := by
    unfold set_active
    exact if_pos hmode
  rw [heq]
  exact refresh_two_passes_aux draw hdraw { s with activeWidget := some identifier }
    identifier hmode hg hcs rfl

/-- Claim C1 (witness). -/
theorem c1_witness :
    ({} : ImCtx).refreshMode = RefreshMode.callback ∧
    ∃ t, set_active (fun t => .ok t) 2 "b" ({} : ImCtx) = .ok (t, 2) ∧
      t.activeWidget = none :=
  ⟨rfl, c1_activation_settles_in_two_passes (fun t => .ok t)
    (fun t => ⟨t, rfl, rfl, rfl, rfl, rfl⟩) {} "b" rfl rfl rfl⟩

/-- Auxiliary for claim C9: any refresh that returns successfully (with the
guard clear at entry) must have started with an empty cursor stack and ends
with an empty cursor stack. -/
theorem refresh_ok_stacks (draw : ImCtx → Except String ImCtx) :
    ∀ (fuel : Nat) (s t : ImCtx) (n : Nat), s.guardActive = false →
      refresh draw fuel s = .ok (t, n) → s.cursorStack = [] ∧ t.cursorStack = [] := by
  intro fuel
  induction fuel with
  | zero =>
      intro s t n hg h
      simp [refresh] at h
  | succ fuel ih =>
      intro s t n hg h
      by_cases hcs : s.cursorStack = []
      · refine ⟨hcs, ?_⟩
        cases hd : draw (pushCursor initCursor { s with guardActive := true }) with
        | error e =>
            rw [refresh, hg] at h
            simp only [Bool.false_eq_true, reduceIte] at h
            rw [hd, hcs] at h
            simp at h
        | ok u =>
            by_cases hug : u.guardActive = true
            · cases hust : u.cursorStack with
              | nil =>
                  rw [refresh, hg] at h
                  simp only [Bool.false_eq_true, reduceIte] at h
                  rw [hd, hcs] at h
                  simp only [reduceIte, hug, hust] at h
                  simp at h
              | cons c rest =>
                  by_cases hrest : rest = []
                  · subst hrest
                    rw [refresh_succ_eq draw fuel s u c hg hcs hd hug hust] at h
                    by_cases hrec : (u.activeWidget.isSome &&
                        decide (u.refreshMode = RefreshMode.callback)) = true
                    · rw [if_pos hrec] at h
                      cases hr : refresh draw fuel (finishPass u) with
                      | error e =>
                          rw [hr] at h
                          simp at h
                      | ok p =>
                          rw [hr] at h
                          obtain ⟨t2, n2⟩ := p
                          simp only [Except.ok.injEq, Prod.mk.injEq] at h
                          obtain ⟨rfl, _⟩ := h
                          exact (ih (finishPass u) t2 n2 (finishPass_guardActive u) hr).2
                    · rw [if_neg hrec] at h
                      simp only [Except.ok.injEq, Prod.mk.injEq] at h
                      rw [← h.1]
                      rfl
                  · rw [refresh, hg] at h
                    simp only [Bool.false_eq_true, reduceIte] at h
                    rw [hd, hcs] at h
                    simp only [reduceIte, hug, hust] at h
                    simp [hrest] at h
            · rw [refresh, hg] at h
              simp only [Bool.false_eq_true, reduceIte] at h
              rw [hd, hcs] at h
              simp only [reduceIte] at h
              rw [if_neg hug] at h
              simp at h
      · rw [refresh, hg] at h
        simp only [Bool.false_eq_true, reduceIte] at h
        rw [if_neg hcs] at h
        simp at h

/-- Claim C9: cursor-stack invariant.  With the guard clear: a refresh
entered with a non-empty cursor stack raises; a refresh whose draw leaves
anything other than exactly the root cursor on the stack (residue after
popping the root, or a missing root) raises; and every refresh that
returns successfully started with an empty cursor stack and leaves the
cursor stack empty. -/
theorem c9_cursor_stack_invariant (draw : ImCtx → Except String ImCtx) (s : ImCtx)
    (hg : s.guardActive = false) :
    (s.cursorStack ≠ [] → ∀ fuel, ∃ e, refresh draw (fuel + 1) s = .error e) ∧
    (∀ fuel t n, refresh draw fuel s = .ok (t, n) →
       s.cursorStack = [] ∧ t.cursorStack = []) ∧
    (∀ fuel u, s.cursorStack = [] →
       draw (pushCursor initCursor { s with guardActive := true }) = .ok u →
       u.guardActive = true → u.cursorStack.length ≠ 1 →
       ∃ e, refresh draw (fuel + 1) s = .error e) := by
  refine ⟨?_, fun fuel t n => refresh_ok_stacks draw fuel s t n hg, ?_⟩
  · intro hne fuel
    refine ⟨"The cursor stack is corrupted, it should be empty", ?_⟩
    rw [refresh, hg]
    simp only [Bool.false_eq_true, reduceIte]
    rw [if_neg hne]
  · intro fuel u hcs hd hug hlen
    cases hust : u.cursorStack with
    | nil =>
        refine ⟨"The cursor stack was corrupted. No active cursor", ?_⟩
        rw [refresh, hg]
        simp only [Bool.false_eq_true, reduceIte]
        rw [hd, hcs]
        simp only [reduceIte, hug, hust]
    | cons c rest =>
        have hrest : rest ≠ [] := by
          intro he
          subst he
          rw [hust] at hlen
          simp at hlen
        refine ⟨"The cursor stack is corrupted, it should be empty", ?_⟩
        rw [refresh, hg]
        simp only [Bool.false_eq_true, reduceIte]
        rw [hd, hcs]
        simp only [reduceIte, hug, hust]
        rw [if_neg hrest]

/-! ### Identity-store effect of a single declarative call -/

theorem lookupW_isSome_of_mem_keys {k : String} {l : List (String × ImWidgetState)}
    (h : k ∈ keys l) : ∃ r, lookupW k l = some r := by
  induction l with
  | nil => simp [keys] at h
  | cons kr rest ih =>
      obtain ⟨k', r'⟩ := kr
      by_cases hk : k' = k
      · exact ⟨r', by simp [lookupW, hk]⟩
      · simp only [keys, List.map_cons, List.mem_cons] at h
        rcases h with h | h
        · exact absurd h.symm hk
        · obtain ⟨r, hr⟩ := ih h
          exact ⟨r, by simp [lookupW, hk, hr]⟩

theorem lookupW_append_single_ne {k idx : String} (r1 : ImWidgetState) (h : k ≠ idx)
    (l : List (String × ImWidgetState)) :
    lookupW k (l ++ [(idx, r1)]) = lookupW k l := by
  induction l with
  | nil =>
      have hik : ¬ idx = k := fun he => h he.symm
      simp [lookupW, hik]
  | cons kr rest ih =>
      obtain ⟨k', r'⟩ := kr
      by_cases hk : k' = k <;> simp [lookupW, hk, ih]

/-- The widget record produced by a placement: the input record with the
first-placement flag cleared, the drawn mark set, and the position filled
in; the store-insertion flag is the input record's first-placement flag. -/
theorem addWidget_record (reqW reqH : Nat → Int) (c : ImCursor) (info : ImWidgetState) :
    ∃ pos : Int × Int,
      (ImCursor.addWidget reqW reqH c info).2.1 =
        { info with new := false, drawn := true, position := some pos } ∧
      (ImCursor.addWidget reqW reqH c info).2.2 = info.new := by
  by_cases h : (queryRow c.stayInRow).1 = true
  · refine ⟨(c.posX + c.padding, c.posY), ?_, ?_⟩ <;>
      rw [addWidget_sticky reqW reqH c info h]
  · have h' : (queryRow c.stayInRow).1 = false := by simpa using h
    refine ⟨(c.padding, c.posY + c.rowHeight + c.padding), ?_, ?_⟩ <;>
      rw [addWidget_newRow reqW reqH c info h']

/-- Effect of a context-level placement on the identity store: the call
succeeds (the cursor stack is non-empty), only the placed identifier's
entry changes, a new record is appended exactly when the record is new,
and an existing entry keeps its native handle. -/
theorem ctxAddWidget_spec (reqW reqH : Nat → Int) (info : ImWidgetState) (s : ImCtx)
    (c : ImCursor) (cs : List ImCursor) (hst : s.cursorStack = c :: cs)
    (hwf : StoreWF s.widgets)
    (hcase : (info.new = true ∧ lookupW info.identifier s.widgets = none) ∨
             (info.new = false ∧ ∃ r0, lookupW info.identifier s.widgets = some r0)) :
    ∃ c' s', ctxAddWidget reqW reqH info s = .ok s' ∧
      s'.cursorStack = c' :: cs ∧
      s'.activeWidget = s.activeWidget ∧
      s'.guardActive = s.guardActive ∧
      s'.refreshMode = s.refreshMode ∧
      s'.namespaces = s.namespaces ∧
      s'.destroyed = s.destroyed ∧
      s'.nextHandle = s.nextHandle ∧
      StoreWF s'.widgets ∧
      (∀ k, k ≠ info.identifier → lookupW k s'.widgets = lookupW k s.widgets) ∧
      (∃ r1, lookupW info.identifier s'.widgets = some r1 ∧
         r1.handle = info.handle ∧ r1.identifier = info.identifier ∧
         r1.drawn = true ∧ r1.new = false ∧
         r1.activeFlag = info.activeFlag ∧ r1.stateVar = info.stateVar ∧
         r1.valueVar = info.valueVar ∧ r1.cbGuard = info.cbGuard) ∧
      (info.new = true → keys s'.widgets = keys s.widgets ++ [info.identifier]) ∧
      (info.new = false →
         keys s'.widgets = keys s.widgets ∧
         (∀ r0, lookupW info.identifier s.widgets = some r0 → info.handle = r0.handle →
            keysHandles s'.widgets = keysHandles s.widgets)) := by
  obtain ⟨pos, hrec, hins⟩ := addWidget_record reqW reqH c info
  rcases hcase with ⟨hnew, hnone⟩ | ⟨hnew, r0, hsome⟩
  · -- first placement: append to the store
    have hid : info.identifier ∉ keys s.widgets := by
      intro hm
      obtain ⟨r, hr⟩ := lookupW_isSome_of_mem_keys hm
      rw [hr] at hnone
      exact Option.noConfusion hnone
    refine ⟨(ImCursor.addWidget reqW reqH c info).1,
      { s with cursorStack := (ImCursor.addWidget reqW reqH c info).1 :: cs,
               widgets := s.widgets ++
                 [(info.identifier, (ImCursor.addWidget reqW reqH c info).2.1)] },
      ?_, rfl, rfl, rfl, rfl, rfl, rfl, rfl, ?_, ?_, ?_, ?_, ?_⟩
    · unfold ctxAddWidget
      rw [hst]
      simp [hins, hnew]
    · constructor
      · simp only [keys_append]
        rw [List.nodup_append]
        refine ⟨hwf.1, by simp [keys], ?_⟩
        intro a ha hb
        simp only [keys, List.map_cons, List.map_nil, List.mem_singleton] at hb
        exact hid (hb ▸ ha)
      · intro kr hkr
        rcases List.mem_append.mp hkr with hkr | hkr
        · exact hwf.2 kr hkr
        · simp only [List.mem_singleton] at hkr
          subst hkr
          rw [hrec]
          exact ⟨rfl, rfl⟩
    · intro k hk
      exact lookupW_append_single_ne _ hk _
    · refine ⟨{ info with new := false, drawn := true, position := some pos }, ?_,
        rfl, rfl, rfl, rfl, rfl, rfl, rfl, rfl⟩
      rw [← hrec]
      rw [lookupW_append_of_none hnone]
      simp [lookupW]
    · intro _
      simp [keys_append, keys]
    · intro hf
      rw [hnew] at hf
      exact Bool.noConfusion hf
  · -- reuse: mutate the existing entry in place
    refine ⟨(ImCursor.addWidget reqW reqH c info).1,
      { s with cursorStack := (ImCursor.addWidget reqW reqH c info).1 :: cs,
               widgets := updateEntry info.identifier
                 ((ImCursor.addWidget reqW reqH c info).2.1) s.widgets },
      ?_, rfl, rfl, rfl, rfl, rfl, rfl, rfl, ?_, ?_, ?_, ?_, ?_⟩
    · unfold ctxAddWidget
      rw [hst]
      simp [hins, hnew]
    · constructor
      · rw [keys_updateEntry]
        exact hwf.1
      · intro kr hkr
        obtain ⟨k, r⟩ := kr
        have hnd' : (keys (updateEntry info.identifier
            ((ImCursor.addWidget reqW reqH c info).2.1) s.widgets)).Nodup := by
          rw [keys_updateEntry]
          exact hwf.1
        have hlk := mem_lookupW hnd' hkr
        by_cases hk : k = info.identifier
        · subst hk
          rw [lookupW_updateEntry_self _ hsome] at hlk
          obtain rfl : (ImCursor.addWidget reqW reqH c info).2.1 = r := by injection hlk
          rw [hrec]
          exact ⟨rfl, rfl⟩
        · rw [lookupW_updateEntry_ne _ hk] at hlk
          exact hwf.2 (k, r) (lookupW_mem hlk)
    · intro k hk
      exact lookupW_updateEntry_ne _ hk
    · refine ⟨{ info with new := false, drawn := true, position := some pos }, ?_,
        rfl, rfl, rfl, rfl, rfl, rfl, rfl, rfl⟩
      rw [← hrec]
      exact lookupW_updateEntry_self _ hsome
    · intro hf
      rw [hnew] at hf
      exact Bool.noConfusion hf
    · intro _
      refine ⟨keys_updateEntry _ _ _, ?_⟩
      intro r0' hr0' hh
      refine keysHandles_updateEntry _ hr0' ?_
      rw [hrec]
      exact hh

/-- Effect of a declarative call body under the imtk_widget wrapper with
the default draw function: placement plus the write-back of the computed
_active flag. -/
theorem widgetWrap_ctxAdd_spec (reqW reqH : Nat → Int) (info : ImWidgetState) (s : ImCtx)
    (c : ImCursor) (cs : List ImCursor) (hst : s.cursorStack = c :: cs)
    (hwf : StoreWF s.widgets)
    (hcase : (info.new = true ∧ lookupW info.identifier s.widgets = none) ∨
             (info.new = false ∧ ∃ r0, lookupW info.identifier s.widgets = some r0)) :
    ∃ c' s', widgetWrap (ctxAddWidget reqW reqH) info s =
        .ok (s', decide (s.activeWidget = some info.identifier)) ∧
      s'.cursorStack = c' :: cs ∧
      s'.activeWidget = s.activeWidget ∧
      s'.guardActive = s.guardActive ∧
      s'.refreshMode = s.refreshMode ∧
      s'.namespaces = s.namespaces ∧
      s'.destroyed = s.destroyed ∧
      s'.nextHandle = s.nextHandle ∧
      StoreWF s'.widgets ∧
      (∀ k, k ≠ info.identifier → lookupW k s'.widgets = lookupW k s.widgets) ∧
      (∃ r1, lookupW info.identifier s'.widgets = some r1 ∧
         r1.handle = info.handle ∧ r1.identifier = info.identifier ∧
         r1.drawn = true ∧ r1.new = false ∧
         r1.stateVar = info.stateVar ∧ r1.valueVar = info.valueVar ∧
         r1.cbGuard = info.cbGuard ∧
         r1.activeFlag = decide (s.activeWidget = some info.identifier)) ∧
      (info.new = true → keys s'.widgets = keys s.widgets ++ [info.identifier]) ∧
      (info.new = false →
         keys s'.widgets = keys s.widgets ∧
         (∀ r0, lookupW info.identifier s.widgets = some r0 → info.handle = r0.handle →
            keysHandles s'.widgets = keysHandles s.widgets)) := by
  obtain ⟨c1, s1, heq, hstk, hact, hgrd, hmode, hns, hdes, hnh, hwf1, hothers, hself,
    hknew, hkold⟩ := ctxAddWidget_spec reqW reqH info s c cs hst hwf hcase
  obtain ⟨r1, hr1, hr1h, hr1i, hr1d, hr1n, hr1a, hr1s, hr1v, hr1c⟩ := hself
  refine ⟨c1, { s1 with widgets := updateEntry info.identifier { r1 with activeFlag := decide (s1.activeWidget = some info.identifier) } s1.widgets }, ?_, hstk, hact, hgrd, hmode, hns, hdes, hnh, ?_, ?_, ?_, ?_, ?_⟩
  · unfold widgetWrap
    rw [heq]
    simp only [hr1]
    rw [hact]
  · constructor
    · rw [keys_updateEntry]
      exact hwf1.1
    · intro kr hkr
      obtain ⟨k, r⟩ := kr
      have hnd' : (keys (updateEntry info.identifier
          { r1 with activeFlag := decide (s1.activeWidget = some info.identifier) }
          s1.widgets)).Nodup := by
        rw [keys_updateEntry]
        exact hwf1.1
      have hlk := mem_lookupW hnd' hkr
      by_cases hk : k = info.identifier
      · subst hk
        rw [lookupW_updateEntry_self _ hr1] at hlk
        obtain rfl : ({ r1 with
            activeFlag := decide (s1.activeWidget = some info.identifier) } : ImWidgetState) = r := by
          injection hlk
        exact ⟨hr1n, hr1i⟩
      · rw [lookupW_updateEntry_ne _ hk] at hlk
        exact hwf1.2 (k, r) (lookupW_mem hlk)
  · intro k hk
    rw [lookupW_updateEntry_ne _ hk]
    exact hothers k hk
  · refine ⟨{ r1 with activeFlag := decide (s1.activeWidget = some info.identifier) },
      lookupW_updateEntry_self _ hr1, hr1h, hr1i, hr1d, hr1n, hr1s, hr1v, hr1c, ?_⟩
    rw [hact]
  · intro hn
    rw [keys_updateEntry]
    exact hknew hn
  · intro hn
    obtain ⟨hke, hkh⟩ := hkold hn
    refine ⟨by rw [keys_updateEntry]; exact hke, ?_⟩
    intro r0 hr0 hh
    rw [keysHandles_updateEntry _ hr1 (by rw [hr1h])]
    exact hkh r0 hr0 hh

/-- Full specification of a single button declaration: success under a
non-empty cursor stack, preservation of the context bookkeeping, the
identity-store effect (only the button's identifier is touched; its record
is marked drawn; an existing record keeps its handle; a missing record is
created from the fresh handle counter). -/
theorem button_spec (reqW reqH : Nat → Int) (d : String) (s : ImCtx)
    (c : ImCursor) (cs : List ImCursor) (hst : s.cursorStack = c :: cs)
    (hwf : StoreWF s.widgets) :
    ∃ c' s' b, button reqW reqH d s = .ok (s', b) ∧
      s'.cursorStack = c' :: cs ∧
      s'.activeWidget = s.activeWidget ∧
      s'.guardActive = s.guardActive ∧
      s'.refreshMode = s.refreshMode ∧
      s'.namespaces = s.namespaces ∧
      s'.destroyed = s.destroyed ∧
      StoreWF s'.widgets ∧
      (∀ k, k ≠ getIdentifier s.namespaces d →
         lookupW k s'.widgets = lookupW k s.widgets) ∧
      (∃ r1, lookupW (getIdentifier s.namespaces d) s'.widgets = some r1 ∧
         r1.drawn = true ∧
         (∀ r0, lookupW (getIdentifier s.namespaces d) s.widgets = some r0 →
            r1.handle = r0.handle)) ∧
      (∀ k, k ∈ keys s'.widgets →
         k ∈ keys s.widgets ∨ k = getIdentifier s.namespaces d) ∧
      ((∃ r0, lookupW (getIdentifier s.namespaces d) s.widgets = some r0) →
         s'.nextHandle = s.nextHandle ∧ keysHandles s'.widgets = keysHandles s.widgets) ∧
      (lookupW (getIdentifier s.namespaces d) s.widgets = none →
         s'.nextHandle = s.nextHandle + 1) := by
  cases hl : lookupW (getIdentifier s.namespaces d) s.widgets with
  | none =>
      obtain ⟨c1, s1, heq, hstk, hact, hgrd, hmode, hns, hdes, hnh, hwf1, hothers, hself,
        hknew, _⟩ := widgetWrap_ctxAdd_spec reqW reqH
          { handle := s.nextHandle, identifier := getIdentifier s.namespaces d }
          { s with nextHandle := s.nextHandle + 1 } c cs hst hwf (Or.inl ⟨rfl, hl⟩)
      obtain ⟨r1, hr1, hr1h, hr1i, hr1d, hr1n, _, _, _, _⟩ := hself
      have hke := hknew rfl
      refine ⟨c1, s1, decide (s.activeWidget = some (getIdentifier s.namespaces d)),
        ?_, hstk, hact, hgrd, hmode, hns, hdes, hwf1, hothers,
        ⟨r1, hr1, hr1d, ?_⟩, ?_, ?_, ?_⟩
      · simp only [button, hl]
        exact heq
      · intro r0 h0
        exact Option.noConfusion h0
      · intro k hk
        rw [hke] at hk
        rcases List.mem_append.mp hk with hk | hk
        · exact Or.inl hk
        · simp only [List.mem_singleton] at hk
          exact Or.inr hk
      · intro h0
        obtain ⟨r0, h0⟩ := h0
        exact Option.noConfusion h0
      · intro _
        exact hnh
  | some r0 =>
      have hprops := hwf.2 _ (lookupW_mem hl)
      have hn0 : r0.new = false := hprops.1
      have hi0 : r0.identifier = getIdentifier s.namespaces d := hprops.2
      obtain ⟨c1, s1, heq, hstk, hact, hgrd, hmode, hns, hdes, hnh, hwf1, hothers, hself,
        _, hkold⟩ := widgetWrap_ctxAdd_spec reqW reqH r0 s c cs hst hwf
          (Or.inr ⟨hn0, r0, by rw [hi0]; exact hl⟩)
      obtain ⟨r1, hr1, hr1h, hr1i, hr1d, hr1n, _, _, _, _⟩ := hself
      rw [hi0] at hr1 hothers heq
      obtain ⟨hke, hkh⟩ := hkold hn0
      refine ⟨c1, s1, decide (s.activeWidget = some (getIdentifier s.namespaces d)),
        ?_, hstk, hact, hgrd, hmode, hns, hdes, hwf1, hothers,
        ⟨r1, hr1, hr1d, ?_⟩, ?_, ?_, ?_⟩
      · simp only [button, hl]
        exact heq
      · intro r0' h0'
        obtain rfl : r0 = r0' := by injection h0'
        rw [hr1h]
      · intro k hk
        rw [hke] at hk
        exact Or.inl hk
      · intro _
        refine ⟨hnh, hkh r0 (by rw [hi0]; exact hl) rfl⟩
      · intro h0
        exact Option.noConfusion h0

/-- Full specification of a draw callback declaring a fixed list of
buttons: every declared identifier ends up present and marked drawn, every
other key is untouched, existing records keep their native handles, and —
when every declared identifier is already present — the store's
key/handle view and the handle allocator are left unchanged (pure cache
hits). -/
theorem drawList_spec (reqW reqH : Nat → Int) (decls : List String) :
    ∀ (s : ImCtx) (c : ImCursor) (cs : List ImCursor), s.cursorStack = c :: cs →
      StoreWF s.widgets →
    ∃ c' s', drawList reqW reqH decls s = .ok s' ∧
      s'.cursorStack = c' :: cs ∧
      s'.activeWidget = s.activeWidget ∧
      s'.guardActive = s.guardActive ∧
      s'.refreshMode = s.refreshMode ∧
      s'.namespaces = s.namespaces ∧
      s'.destroyed = s.destroyed ∧
      StoreWF s'.widgets ∧
      (∀ k, k ∉ decls.map (getIdentifier s.namespaces) →
         lookupW k s'.widgets = lookupW k s.widgets) ∧
      (∀ k r0, lookupW k s.widgets = some r0 → ∃ r1, lookupW k s'.widgets = some r1 ∧
         r1.handle = r0.handle ∧ (r0.drawn = true → r1.drawn = true)) ∧
      (∀ k, k ∈ decls.map (getIdentifier s.namespaces) →
         ∃ r1, lookupW k s'.widgets = some r1 ∧ r1.drawn = true) ∧
      (∀ k, k ∈ keys s'.widgets →
         k ∈ keys s.widgets ∨ k ∈ decls.map (getIdentifier s.namespaces)) ∧
      ((∀ k, k ∈ decls.map (getIdentifier s.namespaces) → k ∈ keys s.widgets) →
         keysHandles s'.widgets = keysHandles s.widgets ∧
         s'.nextHandle = s.nextHandle) := by
  induction decls with
  | nil =>
      intro s c cs hst hwf
      refine ⟨c, s, rfl, hst, rfl, rfl, rfl, rfl, rfl, hwf,
        fun k _ => rfl, ?_, ?_, fun k hk => Or.inl hk, fun _ => ⟨rfl, rfl⟩⟩
      · intro k r0 h0
        exact ⟨r0, h0, rfl, fun h => h⟩
      · intro k hk
        simp at hk
  | cons d ds ih =>
      intro s c cs hst hwf
      obtain ⟨c1, s1, b, heq1, hstk1, hact1, hgrd1, hmode1, hns1, hdes1, hwf1,
        hoth1, ⟨r1, hr1, hr1d, hr1h⟩, hkeys1, hhit1, hmiss1⟩ :=
        button_spec reqW reqH d s c cs hst hwf
      obtain ⟨c2, s2, heq2, hstk2, hact2, hgrd2, hmode2, hns2, hdes2, hwf2,
        hoth2, hpres2, hmem2, hkeys2, hshape2⟩ := ih s1 c1 cs hstk1 hwf1
      have hmap : ds.map (getIdentifier s1.namespaces) =
          ds.map (getIdentifier s.namespaces) := by rw [hns1]
      rw [hmap] at hoth2 hmem2 hkeys2 hshape2
      refine ⟨c2, s2, ?_, hstk2, by rw [hact2, hact1], by rw [hgrd2, hgrd1],
        by rw [hmode2, hmode1], by rw [hns2, hns1], by rw [hdes2, hdes1], hwf2,
        ?_, ?_, ?_, ?_, ?_⟩
      · simp only [drawList, heq1]
        exact heq2
      · intro k hk
        simp only [List.map_cons, List.mem_cons, not_or] at hk
        rw [hoth2 k hk.2]
        exact hoth1 k hk.1
      · intro k r0 h0
        by_cases hk : k = getIdentifier s.namespaces d
        · subst hk
          obtain ⟨r2, hr2, hr2h, hr2d⟩ := hpres2 _ r1 hr1
          exact ⟨r2, hr2, by rw [hr2h, hr1h r0 h0], fun _ => hr2d hr1d⟩
        · have h1 : lookupW k s1.widgets = some r0 := by
            rw [hoth1 k hk]
            exact h0
          exact hpres2 k r0 h1
      · intro k hk
        simp only [List.map_cons, List.mem_cons] at hk
        rcases hk with hk | hk
        · subst hk
          obtain ⟨r2, hr2, hr2h, hr2d⟩ := hpres2 _ r1 hr1
          exact ⟨r2, hr2, hr2d hr1d⟩
        · exact hmem2 k hk
      · intro k hk
        rcases hkeys2 k hk with hk1 | hk1
        · rcases hkeys1 k hk1 with hk2 | hk2
          · exact Or.inl hk2
          · exact Or.inr (by simp [hk2])
        · exact Or.inr (by simp [hk1])
      · intro hAll
        have hd0 : getIdentifier s.namespaces d ∈ keys s.widgets :=
          hAll _ (by simp)
        obtain ⟨r0, hr0⟩ := lookupW_isSome_of_mem_keys hd0
        obtain ⟨hnh1, hkh1⟩ := hhit1 ⟨r0, hr0⟩
        have hkeq1 : keys s1.widgets = keys s.widgets := keys_eq_of_keysHandles hkh1
        obtain ⟨hkh2, hnh2⟩ := hshape2 (by
          intro k hk
          rw [hkeq1]
          exact hAll k (by simp [hk]))
        exact ⟨by rw [hkh2, hkh1], by rw [hnh2, hnh1]⟩

/-! ### End-of-refresh sweep lemmas -/

theorem finishPass_widgets (u : ImCtx) :
    (finishPass u).widgets =
      (u.widgets.filter (fun kr => kr.2.drawn)).map
        (fun kr => (kr.1, { kr.2 with drawn := false })) := rfl

theorem finishPass_destroyed (u : ImCtx) :
    (finishPass u).destroyed =
      u.destroyed ++ (u.widgets.filter (fun kr => !kr.2.drawn)).map
        (fun kr => kr.2.handle) := rfl

theorem keysHandles_map_reset (l : List (String × ImWidgetState)) :
    keysHandles (l.map (fun kr => (kr.1, { kr.2 with drawn := false }))) =
      keysHandles l := by
  induction l with
  | nil => rfl
  | cons kr rest ih => simp [keysHandles]

theorem keys_map_reset (l : List (String × ImWidgetState)) :
    keys (l.map (fun kr => (kr.1, { kr.2 with drawn := false }))) = keys l := by
  induction l with
  | nil => rfl
  | cons kr rest ih => simp [keys]

theorem lookupW_map_reset (k : String) (l : List (String × ImWidgetState)) :
    lookupW k (l.map (fun kr => (kr.1, { kr.2 with drawn := false }))) =
      (lookupW k l).map (fun r => { r with drawn := false }) := by
  induction l with
  | nil => rfl
  | cons kr rest ih =>
      obtain ⟨k', r'⟩ := kr
      by_cases hk : k' = k
      · simp [lookupW, hk]
      · simp [lookupW, hk, ih]

theorem keys_filter_sublist (p : String × ImWidgetState → Bool)
    (l : List (String × ImWidgetState)) :
    (keys (l.filter p)).Sublist (keys l) :=
  (List.filter_sublist l).map Prod.fst

theorem StoreWF_finishPass {u : ImCtx} (h : StoreWF u.widgets) :
    StoreWF (finishPass u).widgets := by
  rw [finishPass_widgets]
  constructor
  · rw [keys_map_reset]
    exact (keys_filter_sublist _ _).nodup h.1
  · intro kr hkr
    obtain ⟨⟨k0, r0⟩, hmem, heq⟩ := List.mem_map.mp hkr
    obtain ⟨hk, hr⟩ := Prod.ext_iff.mp heq
    simp only at hk hr
    have h0 := h.2 (k0, r0) (List.mem_of_mem_filter hmem)
    rw [← heq]
    exact ⟨h0.1, h0.2⟩

theorem finishPass_drawn_false (u : ImCtx) :
    ∀ kr ∈ (finishPass u).widgets, kr.2.drawn = false := by
  rw [finishPass_widgets]
  intro kr hkr
  obtain ⟨⟨k0, r0⟩, _, heq⟩ := List.mem_map.mp hkr
  rw [← heq]

theorem finishPass_lookup_some {u : ImCtx} {k : String} {r : ImWidgetState}
    (hnd : (keys u.widgets).Nodup) (h : lookupW k u.widgets = some r) :
    lookupW k (finishPass u).widgets =
      if r.drawn then some { r with drawn := false } else none := by
  rw [finishPass_widgets, lookupW_map_reset, lookupW_filter _ hnd h]
  by_cases hd : r.drawn
  · simp [hd]
  · simp [hd]

theorem finishPass_destroyed_mem {u : ImCtx} {k : String} {r : ImWidgetState}
    (h : (k, r) ∈ u.widgets) (hd : r.drawn = false) :
    r.handle ∈ (finishPass u).destroyed := by
  rw [finishPass_destroyed]
  apply List.mem_append_right
  exact List.mem_map.mpr ⟨(k, r), List.mem_filter.mpr ⟨h, by simp [hd]⟩, rfl⟩

/-- Claim C2: end-of-refresh sweep.  Starting from a refresh-boundary state
(guard clear, empty cursor stack, no pending activation, well-formed store
with every record's drawn flag reset), a refresh whose draw callback
declares the identifiers of decls removes from the identity store every
record whose declarative function was not called (its key is not among the
declared identifiers, so its drawn flag stayed false) and destroys its
native handle, while every record whose function was called survives with
its handle unchanged. -/
theorem c2_sweep_undrawn (reqW reqH : Nat → Int) (decls : List String) (s0 : ImCtx)
    (hg : s0.guardActive = false) (hcs : s0.cursorStack = [])
    (ha : s0.activeWidget = none) (hwf : StoreWF s0.widgets)
    (hdrawn : ∀ kr ∈ s0.widgets, kr.2.drawn = false) :
    ∃ s1, refresh (drawList reqW reqH decls) 1 s0 = .ok (s1, 1) ∧
      ∀ k r0, lookupW k s0.widgets = some r0 →
        (k ∉ decls.map (getIdentifier s0.namespaces) →
           lookupW k s1.widgets = none ∧ r0.handle ∈ s1.destroyed) ∧
        (k ∈ decls.map (getIdentifier s0.namespaces) →
           ∃ r1, lookupW k s1.widgets = some r1 ∧ r1.handle = r0.handle) := by
  have hsp : (pushCursor initCursor { s0 with guardActive := true }).cursorStack =
      initCursor :: [] := by
    show initCursor :: s0.cursorStack = initCursor :: []
    rw [hcs]
  obtain ⟨c1, u, heqd, hstk, hact, hgrd, hmode, hns, hdes, hwfu,
    hoth, hpres, hmem, hkeys, hshape⟩ :=
    drawList_spec reqW reqH decls (pushCursor initCursor { s0 with guardActive := true })
      initCursor [] hsp hwf
  have hgrd' : u.guardActive = true := by rw [hgrd]; rfl
  have hact' : u.activeWidget = none := by rw [hact]; exact ha
  rw [refresh_succ_eq (drawList reqW reqH decls) 0 s0 u c1 hg hcs heqd hgrd' hstk]
  rw [hact']
  rw [if_neg (show ¬(((none : Option String)).isSome &&
    decide (u.refreshMode = RefreshMode.callback)) = true by simp)]
  refine ⟨finishPass u, rfl, ?_⟩
  intro k r0 h0
  constructor
  · intro hk
    have hu : lookupW k u.widgets = some r0 := by
      rw [hoth k hk]
      exact h0
    have hr0d : r0.drawn = false := hdrawn (k, r0) (lookupW_mem h0)
    constructor
    · rw [finishPass_lookup_some hwfu.1 hu, hr0d]
      simp
    · exact finishPass_destroyed_mem (lookupW_mem hu) hr0d
  · intro hk
    obtain ⟨r1, hr1, hr1h, _⟩ := hpres k r0 h0
    obtain ⟨r1', hr1', hr1d⟩ := hmem k hk
    obtain rfl : r1 = r1' := by
      rw [hr1] at hr1'
      injection hr1'
    refine ⟨{ r1 with drawn := false }, ?_, hr1h⟩
    rw [finishPass_lookup_some hwfu.1 hr1, hr1d]
    simp

/-- Claim C2 (witness): a store with one stale record (key "old", handle 7,
drawn = false) refreshed with a draw callback declaring only "a": the stale
record is evicted and its handle destroyed, while "a" is created. -/
theorem c2_witness :
    ∃ s1, refresh (drawList (fun _ => 10) (fun _ => 10) ["a"]) 1
        { widgets := [("old", { handle := 7, identifier := "old", new := false, drawn := false })] } =
        .ok (s1, 1) ∧
      lookupW "old" s1.widgets = none ∧ (7 : Nat) ∈ s1.destroyed := by
  obtain ⟨s1, heq, hcl⟩ := c2_sweep_undrawn (fun _ => 10) (fun _ => 10) ["a"]
    { widgets := [("old", { handle := 7, identifier := "old", new := false, drawn := false })] }
    rfl rfl rfl (by constructor <;> simp [keys, StoreWF]) (by simp)
  obtain ⟨h1, h2⟩ := (hcl "old" { handle := 7, identifier := "old", new := false, drawn := false }
    (by simp [lookupW])).1 (by simp [getIdentifier, currentNamespace])
  exact ⟨s1, heq, h1, h2⟩

/-- Claim C3: second-refresh idempotence.  Starting from a refresh boundary
with no pending activation, running refresh twice with an unchanged draw
callback (a fixed list of declared identifiers) makes the second pass a
pure cache pass: it creates no widget records (the native-handle allocator
is unchanged), destroys none (the destruction log is unchanged), and leaves
the identity store's key set and every record's native-handle identity
unchanged. -/
theorem c3_second_refresh_idempotent (reqW reqH : Nat → Int) (decls : List String)
    (s0 : ImCtx) (hg : s0.guardActive = false) (hcs : s0.cursorStack = [])
    (ha : s0.activeWidget = none) (hwf : StoreWF s0.widgets)
    (hdrawn : ∀ kr ∈ s0.widgets, kr.2.drawn = false) :
    ∃ s1 s2, refresh (drawList reqW reqH decls) 1 s0 = .ok (s1, 1) ∧
      refresh (drawList reqW reqH decls) 1 s1 = .ok (s2, 1) ∧
      keysHandles s2.widgets = keysHandles s1.widgets ∧
      s2.nextHandle = s1.nextHandle ∧
      s2.destroyed = s1.destroyed := by
  -- first pass
  have hsp : (pushCursor initCursor { s0 with guardActive := true }).cursorStack =
      initCursor :: [] := by
    show initCursor :: s0.cursorStack = initCursor :: []
    rw [hcs]
  obtain ⟨c1, u, heqd, hstk, hact, hgrd, hmode, hns, hdes, hwfu,
    hoth, hpres, hmem, hkeys, hshape⟩ :=
    drawList_spec reqW reqH decls (pushCursor initCursor { s0 with guardActive := true })
      initCursor [] hsp hwf
  have hgrd' : u.guardActive = true := by rw [hgrd]; rfl
  have hact' : u.activeWidget = none := by rw [hact]; exact ha
  have heq1 : refresh (drawList reqW reqH decls) 1 s0 = .ok (finishPass u, 1) := by
    rw [refresh_succ_eq (drawList reqW reqH decls) 0 s0 u c1 hg hcs heqd hgrd' hstk]
    rw [hact']
    rw [if_neg (show ¬(((none : Option String)).isSome &&
      decide (u.refreshMode = RefreshMode.callback)) = true by simp)]
  have hnsu : u.namespaces = s0.namespaces := hns
  -- properties of the boundary state after the first pass
  have hwf1 : StoreWF (finishPass u).widgets := StoreWF_finishPass hwfu
  have hids1 : ∀ k, k ∈ decls.map (getIdentifier s0.namespaces) →
      k ∈ keys (finishPass u).widgets := by
    intro k hk
    obtain ⟨r1, hr1, hr1d⟩ := hmem k hk
    apply mem_keys_of_lookupW (r := { r1 with drawn := false })
    rw [finishPass_lookup_some hwfu.1 hr1, hr1d]
    simp
  have hkeys1 : ∀ k, k ∈ keys (finishPass u).widgets →
      k ∈ decls.map (getIdentifier s0.namespaces) := by
    intro k hk
    obtain ⟨r, hr⟩ := lookupW_isSome_of_mem_keys hk
    rw [finishPass_widgets] at hr
    rw [lookupW_map_reset] at hr
    cases hu : lookupW k (u.widgets.filter (fun kr => kr.2.drawn)) with
    | none =>
        rw [hu] at hr
        exact Option.noConfusion hr
    | some rPre =>
        have hmemf := lookupW_mem hu
        have hd : rPre.drawn = true := by
          have := List.mem_filter.mp hmemf
          simpa using this.2
        have hmemu : (k, rPre) ∈ u.widgets := List.mem_of_mem_filter hmemf
        by_contra hnk
        have hlu : lookupW k u.widgets = some rPre := mem_lookupW hwfu.1 hmemu
        rw [hoth k hnk] at hlu
        have := hdrawn (k, rPre) (lookupW_mem hlu)
        rw [hd] at this
        exact Bool.noConfusion this
  -- second pass
  have hsp1 : (pushCursor initCursor { finishPass u with guardActive := true }).cursorStack =
      initCursor :: [] := by
    show initCursor :: (finishPass u).cursorStack = initCursor :: []
    rw [finishPass_cursorStack]
  obtain ⟨c2, u2, heqd2, hstk2, hact2, hgrd2, hmode2, hns2, hdes2, hwfu2,
    hoth2, hpres2, hmem2, hkeys2, hshape2⟩ :=
    drawList_spec reqW reqH decls
      (pushCursor initCursor { finishPass u with guardActive := true })
      initCursor [] hsp1 hwf1
  have hgrd2' : u2.guardActive = true := by rw [hgrd2]; rfl
  have hact2' : u2.activeWidget = none := by
    rw [hact2]
    exact finishPass_activeWidget u
  have hmapfix : decls.map (getIdentifier
      (pushCursor initCursor { finishPass u with guardActive := true }).namespaces) =
      decls.map (getIdentifier s0.namespaces) := by
    show decls.map (getIdentifier u.namespaces) = decls.map (getIdentifier s0.namespaces)
    rw [hnsu]
  rw [hmapfix] at hoth2 hmem2 hkeys2 hshape2
  obtain ⟨hkh2, hnh2⟩ := hshape2 hids1
  have heq2 : refresh (drawList reqW reqH decls) 1 (finishPass u) = .ok (finishPass u2, 1) := by
    rw [refresh_succ_eq (drawList reqW reqH decls) 0 (finishPass u) u2 c2
      (finishPass_guardActive u) (finishPass_cursorStack u) heqd2 hgrd2' hstk2]
    rw [hact2']
    rw [if_neg (show ¬(((none : Option String)).isSome &&
      decide (u2.refreshMode = RefreshMode.callback)) = true by simp)]
  -- the second sweep removes nothing: every record of u2 is drawn
  have hall2 : ∀ kr ∈ u2.widgets, kr.2.drawn = true := by
    intro kr hkr
    obtain ⟨k, r⟩ := kr
    have hlk : lookupW k u2.widgets = some r := mem_lookupW hwfu2.1 hkr
    have hkin : k ∈ keys u2.widgets := mem_keys_of_lookupW hlk
    have hkeq : keys u2.widgets = keys (finishPass u).widgets := keys_eq_of_keysHandles hkh2
    have hkid : k ∈ decls.map (getIdentifier s0.namespaces) :=
      hkeys1 k (by rw [← hkeq]; exact hkin)
    obtain ⟨r', hr', hr'd⟩ := hmem2 k hkid
    obtain rfl : r = r' := by
      rw [hlk] at hr'
      injection hr'
    exact hr'd
  have hfilters : u2.widgets.filter (fun kr => kr.2.drawn) = u2.widgets :=
    List.filter_eq_self.mpr (fun kr hkr => by simp [hall2 kr hkr])
  have hfiltern : u2.widgets.filter (fun kr => !kr.2.drawn) = [] :=
    List.filter_eq_nil_iff.mpr (fun kr hkr => by simp [hall2 kr hkr])
  refine ⟨finishPass u, finishPass u2, heq1, heq2, ?_, ?_, ?_⟩
  · rw [finishPass_widgets, hfilters, keysHandles_map_reset]
    exact hkh2
  · show u2.nextHandle = (finishPass u).nextHandle
    exact hnh2
  · rw [finishPass_destroyed, hfiltern]
    simp only [List.map_nil, List.append_nil]
    rw [hdes2]
    rfl

/-- Claim C3 (witness). -/
theorem c3_witness :
    ∃ s1 s2, refresh (drawList (fun _ => 10) (fun _ => 10) ["a", "b"]) 1 ({} : ImCtx) =
        .ok (s1, 1) ∧
      refresh (drawList (fun _ => 10) (fun _ => 10) ["a", "b"]) 1 s1 = .ok (s2, 1) ∧
      keysHandles s2.widgets = keysHandles s1.widgets ∧
      s2.nextHandle = s1.nextHandle ∧
      s2.destroyed = s1.destroyed :=
  c3_second_refresh_idempotent (fun _ => 10) (fun _ => 10) ["a", "b"] {}
    rfl rfl rfl (by constructor <;> simp [keys, StoreWF]) (by simp)

/-- Specification of a text (label) declaration: success under a non-empty
cursor stack, context bookkeeping preserved, and every identity-store key
other than the text's own identifier untouched. -/
theorem text_spec (reqW reqH : Nat → Int) (txt : String) (ident : Option String)
    (s : ImCtx) (c : ImCursor) (cs : List ImCursor) (hst : s.cursorStack = c :: cs)
    (hwf : StoreWF s.widgets) :
    ∃ c' s' b, text reqW reqH txt ident s = .ok (s', b) ∧
      s'.cursorStack = c' :: cs ∧
      s'.activeWidget = s.activeWidget ∧
      s'.guardActive = s.guardActive ∧
      s'.refreshMode = s.refreshMode ∧
      s'.namespaces = s.namespaces ∧
      s'.destroyed = s.destroyed ∧
      StoreWF s'.widgets ∧
      (∀ k, k ≠ getIdentifier s.namespaces (textKey ident txt) →
         lookupW k s'.widgets = lookupW k s.widgets) := by
  cases hl : lookupW (getIdentifier s.namespaces (textKey ident txt)) s.widgets with
  | none =>
      obtain ⟨c1, s1, heq, hstk, hact, hgrd, hmode, hns, hdes, hnh, hwf1, hothers,
        _, _, _⟩ := widgetWrap_ctxAdd_spec reqW reqH
          { handle := s.nextHandle, identifier := getIdentifier s.namespaces (textKey ident txt),
            valueVar := txt }
          { s with nextHandle := s.nextHandle + 1 } c cs hst hwf (Or.inl ⟨rfl, hl⟩)
      refine ⟨c1, s1, decide (s.activeWidget = some (getIdentifier s.namespaces (textKey ident txt))),
        ?_, hstk, hact, hgrd, hmode, hns, hdes, hwf1, hothers⟩
      simp only [text, hl]
      exact heq
  | some r0 =>
      have hprops := hwf.2 _ (lookupW_mem hl)
      have hn0 : r0.new = false := hprops.1
      have hi0 : r0.identifier = getIdentifier s.namespaces (textKey ident txt) := hprops.2
      obtain ⟨c1, s1, heq, hstk, hact, hgrd, hmode, hns, hdes, hnh, hwf1, hothers,
        _, _, _⟩ := widgetWrap_ctxAdd_spec reqW reqH { r0 with valueVar := txt }
          s c cs hst hwf (Or.inr ⟨hn0, r0, by
            show lookupW r0.identifier s.widgets = some r0
            rw [hi0]
            exact hl⟩)
      rw [show ({ r0 with valueVar := txt } : ImWidgetState).identifier =
        getIdentifier s.namespaces (textKey ident txt) from hi0] at hothers
      refine ⟨c1, s1, decide (s.activeWidget = some r0.identifier),
        ?_, hstk, hact, hgrd, hmode, hns, hdes, hwf1, hothers⟩
      simp only [text, hl]
      exact heq

/-- A widget's own identifier never collides with the identifier of its
label text widget (the label identifier appends "#label" and possibly a
namespace prefix, so it is strictly longer). -/
theorem ne_label_suffix (ns : List String) (idx : String) :
    idx ≠ getIdentifier ns (idx ++ "#label") := by
  intro he
  have h1 := length_getIdentifier ns (idx ++ "#label")
  rw [← he, String.length_append] at h1
  have h6 : ("#label" : String).length = 6 := rfl
  omega

/-- The "#label"-suffixed identifier handed to the label `text` call is
never empty, so `text`'s truthiness fallback does not fire for it. -/
theorem textKey_label (idx t : String) :
    textKey (some (idx ++ "#label")) t = idx ++ "#label" := by
  have hne : idx ++ "#label" ≠ "" := by
    intro h
    have hlen := congrArg String.length h
    rw [String.length_append] at hlen
    have h6 : ("#label" : String).length = 6 := rfl
    have h0 : ("" : String).length = 0 := rfl
    omega
  simp only [textKey, if_neg hne]

/-- Specification of the optional label-text step inside
_draw_widget_with_label. -/
theorem textOpt_spec (reqW reqH : Nat → Int) (txt : String) (ident : Option String)
    (p : Prop) [Decidable p] (s : ImCtx) (c : ImCursor) (cs : List ImCursor)
    (hst : s.cursorStack = c :: cs) (hwf : StoreWF s.widgets) :
    ∃ c' s', ((if p then
        match text reqW reqH txt ident s with
        | .error e => .error e
        | .ok q => .ok q.1
      else .ok s : Except String ImCtx)) = .ok s' ∧
      s'.cursorStack = c' :: cs ∧
      s'.activeWidget = s.activeWidget ∧
      s'.guardActive = s.guardActive ∧
      s'.refreshMode = s.refreshMode ∧
      s'.namespaces = s.namespaces ∧
      s'.destroyed = s.destroyed ∧
      StoreWF s'.widgets ∧
      (∀ k, k ≠ getIdentifier s.namespaces (textKey ident txt) →
         lookupW k s'.widgets = lookupW k s.widgets) := by
  by_cases hp : p
  · obtain ⟨c1, s1, b, heq, hstk, hact, hgrd, hmode, hns, hdes, hwf1, hothers⟩ :=
      text_spec reqW reqH txt ident s c cs hst hwf
    refine ⟨c1, s1, ?_, hstk, hact, hgrd, hmode, hns, hdes, hwf1, hothers⟩
    rw [if_pos hp, heq]
  · exact ⟨c, s, by rw [if_neg hp], hst, rfl, rfl, rfl, rfl, rfl, hwf, fun k _ => rfl⟩

/-- Specification of _draw_widget_with_label: under a non-empty cursor
stack whose top cursor does not already hold a `SameRowContext` (otherwise
the scoped row's first placement raises `TypeError`, see
`ImCursor.rowEnter`) the draw succeeds, the optional label text widgets
touch only their own "#label"-suffixed identifiers, and the input widget's
record itself is registered/updated exactly as by a plain placement. -/
theorem drawWithLabel_spec (reqW reqH : Nat → Int) (labelText : String)
    (labelFirst : Bool) (info : ImWidgetState) (s : ImCtx) (c : ImCursor)
    (cs : List ImCursor) (hst : s.cursorStack = c :: cs) (hwf : StoreWF s.widgets)
    (hrow : ∀ b, c.stayInRow ≠ RowFlag.rowCtx b)
    (hcase : (info.new = true ∧ lookupW info.identifier s.widgets = none) ∨
             (info.new = false ∧ ∃ r0, lookupW info.identifier s.widgets = some r0)) :
    ∃ c' s', drawWithLabel reqW reqH labelText labelFirst info s = .ok s' ∧
      s'.cursorStack = c' :: cs ∧
      s'.activeWidget = s.activeWidget ∧
      s'.guardActive = s.guardActive ∧
      s'.refreshMode = s.refreshMode ∧
      s'.namespaces = s.namespaces ∧
      s'.destroyed = s.destroyed ∧
      StoreWF s'.widgets ∧
      (∃ r1, lookupW info.identifier s'.widgets = some r1 ∧
         r1.handle = info.handle ∧ r1.identifier = info.identifier ∧
         r1.drawn = true ∧ r1.new = false ∧
         r1.activeFlag = info.activeFlag ∧ r1.stateVar = info.stateVar ∧
         r1.valueVar = info.valueVar ∧ r1.cbGuard = info.cbGuard) := by
  obtain ⟨ce, hre⟩ : ∃ ce, c.rowEnter = some ce := by
    unfold ImCursor.rowEnter
    cases hcs : c.stayInRow with
    | off => exact ⟨_, rfl⟩
    | once => exact ⟨_, rfl⟩
    | rowCtx b => exact absurd hcs (hrow b)
  have hsa : ({ s with cursorStack := ce :: cs } : ImCtx).cursorStack =
      ce :: cs := rfl
  obtain ⟨c1, s1, heq1, hstk1, hact1, hgrd1, hmode1, hns1, hdes1, hwf1, hoth1⟩ :=
    textOpt_spec reqW reqH labelText (some (info.identifier ++ "#label"))
      (labelText ≠ "" ∧ labelFirst) { s with cursorStack := ce :: cs }
      ce cs hsa hwf
  have hlab1 : info.identifier ≠ getIdentifier
      ({ s with cursorStack := ce :: cs } : ImCtx).namespaces
      (textKey (some (info.identifier ++ "#label")) labelText) := by
    rw [textKey_label]
    exact ne_label_suffix _ _
  have hcase1 : (info.new = true ∧ lookupW info.identifier s1.widgets = none) ∨
      (info.new = false ∧ ∃ r0, lookupW info.identifier s1.widgets = some r0) := by
    rw [hoth1 info.identifier hlab1]
    exact hcase
  obtain ⟨c2, s2, heq2, hstk2, hact2, hgrd2, hmode2, hns2, hdes2, hnh2, hwf2,
    hoth2, hself2, _, _⟩ := ctxAddWidget_spec reqW reqH info s1 c1 cs hstk1 hwf1 hcase1
  obtain ⟨r1, hr1, hr1h, hr1i, hr1d, hr1n, hr1a, hr1s, hr1v, hr1c⟩ := hself2
  obtain ⟨c3, s3, heq3, hstk3, hact3, hgrd3, hmode3, hns3, hdes3, hwf3, hoth3⟩ :=
    textOpt_spec reqW reqH (stripLabel labelText) (some (info.identifier ++ "#label"))
      (¬ labelFirst ∧ labelText ≠ "") s2 c2 cs hstk2 hwf2
  have hlab3 : info.identifier ≠ getIdentifier s2.namespaces
      (textKey (some (info.identifier ++ "#label")) (stripLabel labelText)) := by
    rw [textKey_label]
    exact ne_label_suffix _ _
  refine ⟨ImCursor.rowExit c3, { s3 with cursorStack := ImCursor.rowExit c3 :: cs },
    ?_, rfl, ?_, ?_, ?_, ?_, ?_, hwf3, ?_⟩
  · unfold drawWithLabel
    rw [hst]
    simp only [hre, heq1, heq2, heq3, hstk3]
  · rw [hact3, hact2, hact1]
  · rw [hgrd3, hgrd2, hgrd1]
  · rw [hmode3, hmode2, hmode1]
  · rw [hns3, hns2, hns1]
  · rw [hdes3, hdes2, hdes1]
  · refine ⟨r1, ?_, hr1h, hr1i, hr1d, hr1n, hr1a, hr1s, hr1v, hr1c⟩
    show lookupW info.identifier s3.widgets = some r1
    rw [hoth3 info.identifier hlab3]
    exact hr1

/-- Declaring a labelled widget while the top cursor already holds a
`SameRowContext` raises: `_draw_widget_with_label` opens its own row scope
and the first placement inside it trips over the non-boolean stored
`stay_in_row`. -/
theorem drawWithLabel_nested_row (reqW reqH : Nat → Int) (labelText : String)
    (labelFirst : Bool) (info : ImWidgetState) (s : ImCtx) (c : ImCursor)
    (cs : List ImCursor) (b : Bool) (hst : s.cursorStack = c :: cs)
    (hb : c.stayInRow = RowFlag.rowCtx b) :
    drawWithLabel reqW reqH labelText labelFirst info s =
      .error "TypeError: __bool__ should return bool, returned SameRowContext" := by
  have hnone : c.rowEnter = none := by
    unfold ImCursor.rowEnter
    rw [hb]
  unfold drawWithLabel
  rw [hst]
  simp only [hnone]

/-- Claim C8: write-suppression for stateful input widgets.  The
declarative input_text call programmatically writes the application value
into the native widget exactly when the widget is not the active one, and
that write is bracketed by toggling the change-callback guard off and back
on, so it never records the widget in the active-identifier signal and the
interaction flag reads false; when the widget is the active one the
displayed value is left untouched.  The declaration must not sit inside an
already-open scoped row: there `_draw_widget_with_label`'s own `row()`
raises `TypeError` before any store or signal effect (see
`ImCursor.rowEnter`), hence the `hrow` hypothesis. -/
theorem c8_write_suppression (reqW reqH : Nat → Int) (label text_ : String)
    (labelFirst : Bool) (s : ImCtx) (c : ImCursor) (cs : List ImCursor)
    (r0 : ImWidgetState) (hst : s.cursorStack = c :: cs) (hwf : StoreWF s.widgets)
    (hrow : ∀ b, c.stayInRow ≠ RowFlag.rowCtx b)
    (h0 : lookupW (getIdentifier s.namespaces label) s.widgets = some r0) :
    ∃ s' act v, input_text reqW reqH label text_ labelFirst s = .ok (s', act, v) ∧
      s'.activeWidget = s.activeWidget ∧
      (s.activeWidget ≠ some (getIdentifier s.namespaces label) →
         act = false ∧ v = text_ ∧
         ∃ r1, lookupW (getIdentifier s.namespaces label) s'.widgets = some r1 ∧
           r1.valueVar = text_ ∧ r1.cbGuard = true ∧ r1.handle = r0.handle) ∧
      (s.activeWidget = some (getIdentifier s.namespaces label) →
         ∃ r1, lookupW (getIdentifier s.namespaces label) s'.widgets = some r1 ∧
           r1.valueVar = r0.valueVar ∧ r1.handle = r0.handle) := by
  have hprops := hwf.2 _ (lookupW_mem h0)
  have hn0 : r0.new = false := hprops.1
  have hi0 : r0.identifier = getIdentifier s.namespaces label := hprops.2
  by_cases hA : s.activeWidget = some (getIdentifier s.namespaces label)
  · -- the widget is the active one: no programmatic write
    obtain ⟨c2, s2, heqd, hstk2, hact2, hgrd2, hmode2, hns2, hdes2, hwf2, hself⟩ :=
      drawWithLabel_spec reqW reqH (stripLabel label) labelFirst r0 s c cs hst hwf hrow
        (Or.inr ⟨hn0, r0, by rw [hi0]; exact h0⟩)
    obtain ⟨r1, hr1, hr1h, hr1i, hr1d, hr1n, hr1a, hr1s, hr1v, hr1c⟩ := hself
    have hcond : ¬ (s.activeWidget ≠ some r0.identifier) := by
      rw [hi0]
      exact fun hne => hne hA
    refine ⟨{ s2 with widgets := updateEntry r0.identifier { r1 with activeFlag := decide (s2.activeWidget = some r0.identifier) } s2.widgets }, decide (s2.activeWidget = some r0.identifier), r0.valueVar, ?_, ?_, ?_, ?_⟩
    · simp only [input_text, h0]
      rw [if_neg hcond]
      simp only [heqd, hr1]
    · exact hact2
    · intro hne
      exact absurd hA hne
    · intro _
      refine ⟨{ r1 with activeFlag := decide (s2.activeWidget = some r0.identifier) }, ?_, hr1v, hr1h⟩
      show lookupW (getIdentifier s.namespaces label) (updateEntry r0.identifier _ s2.widgets) = _
      rw [← hi0]
      exact lookupW_updateEntry_self _ hr1
  · -- the widget is not active: guarded programmatic write of text_
    have hcond : s.activeWidget ≠ some r0.identifier := by
      rw [hi0]
      exact hA
    obtain ⟨c2, s2, heqd, hstk2, hact2, hgrd2, hmode2, hns2, hdes2, hwf2, hself⟩ :=
      drawWithLabel_spec reqW reqH (stripLabel label) labelFirst
        { r0 with valueVar := text_, cbGuard := true } s c cs hst hwf hrow
        (Or.inr ⟨hn0, r0, by show lookupW r0.identifier s.widgets = some r0; rw [hi0]; exact h0⟩)
    obtain ⟨r1, hr1, hr1h, hr1i, hr1d, hr1n, hr1a, hr1s, hr1v, hr1c⟩ := hself
    have hact2' : s2.activeWidget ≠ some r0.identifier := by
      rw [hact2]
      exact hcond
    refine ⟨{ s2 with widgets := updateEntry r0.identifier { r1 with activeFlag := decide (s2.activeWidget = some r0.identifier) } s2.widgets }, decide (s2.activeWidget = some r0.identifier), text_, ?_, ?_, ?_, ?_⟩
    · simp only [input_text, h0]
      rw [if_pos hcond]
      simp only [syncWrite_eq, heqd, hr1]
    · exact hact2
    · intro _
      refine ⟨?_, rfl, { r1 with activeFlag := decide (s2.activeWidget = some r0.identifier) }, ?_, hr1v, hr1c, hr1h⟩
      · simp [hact2']
      · show lookupW (getIdentifier s.namespaces label) (updateEntry r0.identifier _ s2.widgets) = _
        rw [← hi0]
        exact lookupW_updateEntry_self _ hr1
    · intro hne
      exact absurd hne hA

theorem checkboxCommand_activeWidget (label : String) (s : ImCtx) :
    (checkboxCommand label s).activeWidget = some label := rfl

theorem checkboxCommand_widgets (label : String) (s : ImCtx) :
    (checkboxCommand label s).widgets = s.widgets := rfl

theorem checkboxCommand_namespaces (label : String) (s : ImCtx) :
    (checkboxCommand label s).namespaces = s.namespaces := rfl

theorem checkboxCommand_nextHandle (label : String) (s : ImCtx) :
    (checkboxCommand label s).nextHandle = s.nextHandle := rfl

theorem checkboxCommand_cursorStack (label : String) (s : ImCtx) :
    (checkboxCommand label s).cursorStack = s.cursorStack := rfl

theorem checkboxCommand_refreshMode (label : String) (s : ImCtx) :
    (checkboxCommand label s).refreshMode = s.refreshMode := rfl

theorem checkboxCommand_guardActive (label : String) (s : ImCtx) :
    (checkboxCommand label s).guardActive = s.guardActive := rfl

theorem checkboxCommand_destroyed (label : String) (s : ImCtx) :
    (checkboxCommand label s).destroyed = s.destroyed := rfl

/-- Claim C10: the checkbox's native callback records the raw,
un-namespaced label into the active-identifier signal, while the
interaction flag and the value-sync guard compare against the fully
namespaced identifier.  Hence for a checkbox declared inside a non-empty
namespace, a click (checkboxCommand) never makes the returned interaction
flag true, and the displayed state is overwritten with the
application-supplied value on the next refresh pass. -/
theorem c10_checkbox_raw_label_mismatch (reqW reqH : Nat → Int) (label : String)
    (value : Bool) (s0 : ImCtx) (c : ImCursor) (cs : List ImCursor)
    (hst : s0.cursorStack = c :: cs) (hwf : StoreWF s0.widgets)
    (hns : currentNamespace s0.namespaces ≠ "") :
    ∃ s' v, checkbox reqW reqH label value (checkboxCommand label s0) = .ok (s', false, v) ∧
      v = value ∧
      ∃ r1, lookupW (getIdentifier s0.namespaces label) s'.widgets = some r1 ∧
        r1.stateVar = value ∧ r1.activeFlag = false := by
  have hne : (some label : Option String) ≠ some (getIdentifier s0.namespaces label) := by
    intro he
    have h1 : label = getIdentifier s0.namespaces label := Option.some.inj he
    exact getIdentifier_ne_self label hns h1.symm
  have hst2 : (checkboxCommand label s0).cursorStack = c :: cs := hst
  have hwf2 : StoreWF (checkboxCommand label s0).widgets := hwf
  have hdec : decide ((checkboxCommand label s0).activeWidget =
      some (getIdentifier s0.namespaces label)) = false := decide_eq_false hne
  cases hl : lookupW (getIdentifier s0.namespaces label) s0.widgets with
  | some r0 =>
      have hprops := hwf.2 _ (lookupW_mem hl)
      have hn0 : r0.new = false := hprops.1
      have hi0 : r0.identifier = getIdentifier s0.namespaces label := hprops.2
      have hcond : (some label : Option String) ≠ some r0.identifier := by
        rw [hi0]
        exact hne
      obtain ⟨c1, s1, heq, hstk, hact, hgrd, hmode, hnsp, hdes, hnh, hwf1,
        hoth, hself, _, _⟩ := widgetWrap_ctxAdd_spec reqW reqH
          { r0 with stateVar := value } (checkboxCommand label s0) c cs hst2 hwf2
          (Or.inr ⟨hn0, r0, by
            show lookupW r0.identifier (checkboxCommand label s0).widgets = some r0
            rw [hi0]
            exact hl⟩)
      obtain ⟨r1, hr1, hr1h, hr1i, hr1d, hr1n, hr1s, hr1v, hr1c, hr1a⟩ := hself
      have hid : ({ r0 with stateVar := value } : ImWidgetState).identifier =
          getIdentifier s0.namespaces label := hi0
      rw [hid] at hr1 hr1a
      have hdec2 : decide ((checkboxCommand label s0).activeWidget =
          some ({ r0 with stateVar := value } : ImWidgetState).identifier) = false := by
        rw [hid]
        exact hdec
      refine ⟨s1, value, ?_, rfl, r1, hr1, by rw [hr1s], by rw [hr1a]; exact hdec⟩
      simp only [checkbox, checkboxCommand_activeWidget, checkboxCommand_widgets,
        checkboxCommand_namespaces, checkboxCommand_nextHandle, hl]
      rw [if_pos hcond, heq, hdec2]
  | none =>
      obtain ⟨c1, s1, heq, hstk, hact, hgrd, hmode, hnsp, hdes, hnh, hwf1,
        hoth, hself, _, _⟩ := widgetWrap_ctxAdd_spec reqW reqH
          { handle := s0.nextHandle, identifier := getIdentifier s0.namespaces label, stateVar := value }
          { widgets := s0.widgets, activeWidget := some label, cursorStack := s0.cursorStack, namespaces := s0.namespaces, refreshMode := s0.refreshMode, guardActive := s0.guardActive, nextHandle := s0.nextHandle + 1, destroyed := s0.destroyed }
          c cs hst2 hwf2 (Or.inl ⟨rfl, hl⟩)
      obtain ⟨r1, hr1, hr1h, hr1i, hr1d, hr1n, hr1s, hr1v, hr1c, hr1a⟩ := hself
      have hdec3 : decide ((({ widgets := s0.widgets, activeWidget := some label, cursorStack := s0.cursorStack, namespaces := s0.namespaces, refreshMode := s0.refreshMode, guardActive := s0.guardActive, nextHandle := s0.nextHandle + 1, destroyed := s0.destroyed } : ImCtx)).activeWidget = some (({ handle := s0.nextHandle, identifier := getIdentifier s0.namespaces label, stateVar := value } : ImWidgetState)).identifier) = false :=
        decide_eq_false hne
      refine ⟨s1, value, ?_, rfl, r1, hr1, by rw [hr1s], by rw [hr1a]; exact hdec3⟩
      simp only [checkbox, checkboxCommand_activeWidget, checkboxCommand_widgets,
        checkboxCommand_namespaces, checkboxCommand_nextHandle, checkboxCommand_cursorStack,
        checkboxCommand_refreshMode, checkboxCommand_guardActive, checkboxCommand_destroyed, hl]
      rw [if_pos hne, heq, hdec3]

/-- A concrete context holding one existing text-input record, used to
exercise the write-suppression path. -/
def c8state : ImCtx :=
  pushCursor initCursor
    { widgets := [("lbl", { handle := 0, identifier := "lbl", new := false, drawn := false })] }

/-- Claim C8 (witness): with no pending activation, the input repaints the
application value "hello" and reports no interaction. -/
theorem c8_witness :
    ∃ s', input_text (fun _ => 10) (fun _ => 10) "lbl" "hello" false c8state =
      .ok (s', false, "hello") := by
  obtain ⟨s', act, v, heq, _, hcl, _⟩ :=
    c8_write_suppression (fun _ => 10) (fun _ => 10) "lbl" "hello" false c8state
      initCursor [] { handle := 0, identifier := "lbl", new := false, drawn := false }
      rfl (by constructor <;> simp [c8state, pushCursor, keys]) (by decide) rfl
  obtain ⟨ha, hv, _⟩ := hcl (by simp [c8state, pushCursor, getIdentifier, currentNamespace])
  rw [ha, hv] at heq
  exact ⟨s', heq⟩

/-- Claim C10 (witness): clicking a checkbox labelled "cb" inside
namespace "ns" yields interaction flag false and the displayed state is
forced back to the application value true. -/
theorem c10_witness :
    ∃ s' v, checkbox (fun _ => 10) (fun _ => 10) "cb" true
        (checkboxCommand "cb" (pushCursor initCursor { namespaces := ["ns"] })) =
        .ok (s', false, v) ∧ v = true ∧
      ∃ r1, lookupW (getIdentifier (pushCursor initCursor
          { namespaces := ["ns"] } : ImCtx).namespaces "cb") s'.widgets = some r1 ∧
        r1.stateVar = true ∧ r1.activeFlag = false :=
  c10_checkbox_raw_label_mismatch (fun _ => 10) (fun _ => 10) "cb" true
    (pushCursor initCursor { namespaces := ["ns"] }) initCursor [] rfl
    (by constructor <;> simp [pushCursor, keys]) (by decide)

/-- Claim C9 (witness). -/
theorem c9_witness :
    ({ cursorStack := [initCursor] } : ImCtx).guardActive = false ∧
    (∃ e, refresh (fun t => .ok t) 1 ({ cursorStack := [initCursor] } : ImCtx) = .error e) :=
  ⟨rfl, (c9_cursor_stack_invariant (fun t => .ok t)
    { cursorStack := [initCursor] } rfl).1 (by simp) 0⟩

end Imtk
